import Mathlib

set_option linter.unusedVariables false

/-!
Shallow embedding of the nearcore state-sync core
(`chain/client/src/sync/state.rs`) and theorems checking the
specification's claims against it.

Conventions of the embedding:
* `CryptoHash` is modelled as `Nat`, with `CryptoHash::default()` as `0`.
* Timestamps (`Utc`) and the timeout duration are `Int` (a linear clock).
* The chain store, epoch manager and runtime adapter are modelled as a
  record of total functions (`Chain`): lookups return `Option`, fallible
  writes are governed by boolean success oracles, and successful writes
  are recorded in explicit logs (`stored_parts`, `flat_created`,
  `finalized`).
* Rust panics (`panic!`, failed `assert!`, `.unwrap()` on `None`,
  out-of-bounds indexing) are modelled as distinguished `SyncErr`
  values that abort the tick, mirroring unwinding to the caller.
* Logging and metrics are dropped; messages to the apply/memtrie
  schedulers and the network adapter are dropped at the `run` level but
  the per-request dispatch lists are kept inside the request functions,
  where the claims need them.
* Randomness (`possible_targets.choose(&mut thread_rng())`) is modelled
  as taking the first element of the non-empty list; the claims never
  depend on which peer is chosen.
-/

deriving instance DecidableEq for Except

namespace StateSyncModel

abbrev Hash := Nat
abbrev EpochId := Nat
abbrev ShardId := Nat
abbrev PeerId := Nat

/-- Modelled from the spec: `ShardUId` is a (layout-version, shard-id) pair
(`near_primitives::shard_layout::ShardUId`, not under src/). -/
structure ShardUId where
  version : Nat
  shard_id : Nat
deriving Repr, DecidableEq

/-- Block header abstraction: only the fields the sync core reads
(`hash()`, `prev_hash()`, `epoch_id()`). -/
structure BlockHeader where
  hash : Hash
  prev_hash : Hash
  epoch_id : EpochId
deriving Repr, DecidableEq

/-- Shard layout abstraction: `version()` plus opaque content entering the
equality comparison in `sync_shards_status`. -/
structure ShardLayout where
  version : Nat
  content : Nat
deriving Repr, DecidableEq

/-- Abstraction of `ShardStateSyncResponseHeader`: the fields the sync core
reads (`num_state_parts()`, `chunk_prev_state_root()`, and the
`prev_block()` hash of `cloned_chunk()`). -/
structure StateHeaderData where
  num_state_parts : Nat
  chunk_prev_state_root : Hash
  chunk_prev_block : Hash
deriving Repr, DecidableEq

/-- Modelled from the spec: `PartId` (`near_primitives::state_part`, not
under src/) is an (idx, total) pair. -/
structure PartId where
  idx : Nat
  total : Nat
deriving Repr, DecidableEq

/-- Modelled from the spec: `DownloadStatus` lives in
`near-client-primitives` (not under src/); fields are listed in section 3
of the spec ("DownloadSlot"): `run_me` (initial true), `done`, `error`,
`state_requests_count`, `last_target`, `start_time`, `prev_update_time`. -/
structure DownloadStatus where
  run_me : Bool
  done : Bool
  error : Bool
  state_requests_count : Nat
  last_target : Option PeerId
  start_time : Int
  prev_update_time : Int
deriving Repr, DecidableEq

/-- Modelled from the spec: `ShardSyncStatus` variants; every variant is
named in the `match` of `sync_shards_status` in src. -/
inductive ShardSyncStatus
  | StateDownloadHeader
  | StateDownloadParts
  | StateApplyScheduling
  | StateApplyInProgress
  | StateApplyFinalizing
  | ReshardingScheduling
  | ReshardingApplying
  | StateSyncDone
deriving Repr, DecidableEq

/-- Modelled from the spec: `ShardSyncDownload` (near-client-primitives,
not under src/): a `downloads` vector of slots plus a `status`. -/
structure ShardSyncDownload where
  downloads : List DownloadStatus
  status : ShardSyncStatus
deriving Repr, DecidableEq

/-- Modelled from the spec: a fresh slot has `run_me = true`, all other
flags clear, zero attempts, no target, both timestamps set to `now`. -/
def DownloadStatus.new (now : Int) : DownloadStatus :=
  { run_me := true, done := false, error := false, state_requests_count := 0,
    last_target := none, start_time := now, prev_update_time := now }

/-- Modelled from the spec: `ShardSyncDownload::new_download_state_header`:
one fresh slot, status `StateDownloadHeader`. -/
def ShardSyncDownload.new_download_state_header (now : Int) : ShardSyncDownload :=
  { downloads := [DownloadStatus.new now], status := .StateDownloadHeader }

/-- Modelled from the spec: `ShardSyncDownload::new_download_state_parts`:
`num_parts` fresh slots, status `StateDownloadParts`. -/
def ShardSyncDownload.new_download_state_parts (now : Int) (num_parts : Nat) :
    ShardSyncDownload :=
  { downloads := List.replicate num_parts (DownloadStatus.new now),
    status := .StateDownloadParts }

/-- Modelled from the spec: `get_header_download_mut` yields the single
header slot while the shard is in the header phase. -/
def ShardSyncDownload.get_header_download (s : ShardSyncDownload) :
    Option DownloadStatus :=
  if s.status = .StateDownloadHeader then s.downloads.head? else none

/-- Writing back through the `get_header_download_mut` reference: replace
slot 0. -/
def ShardSyncDownload.set_header_download (s : ShardSyncDownload)
    (d : DownloadStatus) : ShardSyncDownload :=
  { s with downloads := s.downloads.set 0 d }

/-- Errors from the chain store / epoch manager (`near_chain::Error`),
abstracted to the cases the sync core distinguishes. -/
inductive ChainError
  | headerNotFound (h : Hash)
  | stateHeaderNotFound (shard : ShardId) (h : Hash)
  | epochError (code : Nat)
  | storeError (code : Nat)
deriving Repr, DecidableEq

/-- Outcome of a `run` tick other than a normal result: a propagated
`near_chain::Error`, or one of the panics in the source, each modelled
as its own constructor. -/
inductive SyncErr
  | chainErr (e : ChainError)
  | panicShardLayoutChanged
  | panicResharding
  | panicIndexOutOfBounds
  | panicAssertHeaderRunMe
  | panicUnwrapFailed
  | fuelExhausted
deriving Repr, DecidableEq

/-- The chain store, epoch manager and runtime adapter as one environment:
read-only lookups, boolean success oracles for the fallible writes, and
logs of the writes that succeeded. -/
structure Chain where
  headers : Hash → Option BlockHeader
  state_headers : ShardId → Hash → Option StateHeaderData
  set_state_header_ok : ShardId → Hash → StateHeaderData → Bool
  set_state_part_ok : ShardId → Hash → Nat → Nat → Bool
  schedule_apply_ok : ShardId → Hash → Nat → Bool
  clear_parts_ok : ShardId → Hash → Nat → Bool
  create_flat_storage_ok : ShardUId → Bool
  set_state_finalize_ok : ShardId → Hash → Bool
  shard_layout : EpochId → Option ShardLayout
  will_shard_layout_change : Hash → Option Bool
  shard_id_to_uid : ShardId → EpochId → Option ShardUId
  epoch_height : EpochId → Option Nat
  stored_parts : List (Hash × ShardId × Nat)
  flat_created : List ShardUId
  finalized : List (ShardId × Hash)

/-- `chain.get_block_header(&h)`. -/
def Chain.get_block_header (c : Chain) (h : Hash) : Except SyncErr BlockHeader :=
  match c.headers h with
  | some hdr => .ok hdr
  | none => .error (.chainErr (.headerNotFound h))

/-- `chain.get_state_header(shard_id, sync_hash)`. -/
def Chain.get_state_header (c : Chain) (shard_id : ShardId) (h : Hash) :
    Except SyncErr StateHeaderData :=
  match c.state_headers shard_id h with
  | some sh => .ok sh
  | none => .error (.chainErr (.stateHeaderNotFound shard_id h))

/-- `chain.set_state_header(shard_id, sync_hash, header)`: on success the
header becomes readable via `get_state_header`. -/
def Chain.set_state_header (c : Chain) (shard_id : ShardId) (h : Hash)
    (hdr : StateHeaderData) : Except ChainError Chain :=
  if c.set_state_header_ok shard_id h hdr then
    .ok { c with state_headers := fun s hh =>
            if s = shard_id ∧ hh = h then some hdr else c.state_headers s hh }
  else .error (.storeError 0)

/-- `chain.set_state_part(shard_id, hash, part_id, data)`: on success the
row is recorded in the `StateParts` log. -/
def Chain.set_state_part (c : Chain) (shard_id : ShardId) (h : Hash)
    (idx : Nat) (data : Nat) : Except ChainError Chain :=
  if c.set_state_part_ok shard_id h idx data then
    .ok { c with stored_parts := c.stored_parts ++ [(h, shard_id, idx)] }
  else .error (.storeError 3)

/-- `chain.clear_downloaded_parts(shard_id, sync_hash, num_parts)`. -/
def Chain.clear_downloaded_parts (c : Chain) (shard_id : ShardId) (h : Hash)
    (num_parts : Nat) : Except SyncErr Chain :=
  if c.clear_parts_ok shard_id h num_parts then
    .ok { c with stored_parts :=
            c.stored_parts.filter (fun e => !(e.1 == h && e.2.1 == shard_id)) }
  else .error (.chainErr (.storeError 4))

/-- `chain.create_flat_storage_for_shard(shard_uid, &chunk)`. -/
def Chain.create_flat_storage (c : Chain) (uid : ShardUId) : Except SyncErr Chain :=
  if c.create_flat_storage_ok uid then
    .ok { c with flat_created := c.flat_created ++ [uid] }
  else .error (.chainErr (.storeError 1))

/-- `chain.set_state_finalize(shard_id, sync_hash)`. -/
def Chain.set_state_finalize (c : Chain) (shard_id : ShardId) (h : Hash) :
    Except SyncErr Chain :=
  if c.set_state_finalize_ok shard_id h then
    .ok { c with finalized := c.finalized ++ [(shard_id, h)] }
  else .error (.chainErr (.storeError 2))

/-- `StateSyncFileDownloadResult`. -/
inductive FileDownloadResult
  | stateHeader (header_length : Nat) (header : StateHeaderData)
  | statePart (part_length : Nat)
deriving Repr, DecidableEq

/-- `StateSyncGetFileResult`: one completion message on the MPSC channel. -/
structure StateSyncGetFileResult where
  sync_hash : Hash
  shard_id : ShardId
  part_id : Option PartId
  result : Except String FileDownloadResult
deriving Repr, DecidableEq

/-- `StateSyncExternal` without the connection handle: chain id, the
currently available semaphore permits, and the peer-attempts threshold. -/
structure StateSyncExternalCfg where
  chain_id : Nat
  permits : Nat
  peer_attempts_threshold : Nat
deriving Repr, DecidableEq

/-- The `StateSync` struct: timeout, optional external storage, the two
result maps fed by the client actor, and the pending MPSC messages.
(`resharding_state_roots` is never read inside `run` and is omitted.) -/
structure StateSync where
  timeout : Int
  external : Option StateSyncExternalCfg
  apply_results : ShardId → Option (Except ChainError Unit)
  memtrie_results : ShardUId → Option (Except ChainError Unit)
  channel : List StateSyncGetFileResult

def StateSync.externalPermits (ss : StateSync) : Nat :=
  match ss.external with
  | some c => c.permits
  | none => 0

def StateSync.setExternalPermits (ss : StateSync) (p : Nat) : StateSync :=
  { ss with external := ss.external.map (fun c => { c with permits := p }) }

/-- The per-shard status map (`HashMap<u64, ShardSyncDownload>`). -/
abbrev ShardMap := ShardId → Option ShardSyncDownload

def ShardMap.insert (m : ShardMap) (k : ShardId) (v : ShardSyncDownload) : ShardMap :=
  fun s => if s = k then some v else m s

/-- `StateSyncResult`. -/
inductive StateSyncResult
  | InProgress
  | Completed
deriving Repr, DecidableEq

/-- `process_download_response` (src lines 1268-1295): on `Ok` set
`done := true`, on `Err` set `done := false`; `run_me` and `error` are
not touched. The `shard_id` / `sync_hash` / `file_type` arguments of the
source feed only metrics and logs and are dropped. -/
def process_download_response_m (download : Option DownloadStatus)
    (download_result : Except String Nat) : Option DownloadStatus :=
  match download_result with
  | .ok _ => download.map (fun d => { d with done := true })
  | .error _ => download.map (fun d => { d with done := false })

/-- One message of the drain loop in `process_downloaded_parts`
(src lines 349-404): mismatched `sync_hash` or missing shard entry skip;
`Err` results pair with no slot; a header completion is only acted on in
`StateDownloadHeader` on a not-done slot and goes through
`chain.set_state_header`; a part completion is only acted on in
`StateDownloadParts` and targets the slot at `part_id.idx`. -/
def drain_one (sync_hash : Hash) (st : Chain × ShardMap)
    (m : StateSyncGetFileResult) : Chain × ShardMap :=
  let chain := st.1
  let shard_sync := st.2
  if m.sync_hash ≠ sync_hash then (chain, shard_sync)
  else
    match shard_sync m.shard_id with
    | none => (chain, shard_sync)
    | some ssd =>
      match m.result with
      | .error _ =>
        -- `(Err(err), None)`: `process_download_response` receives no slot.
        (chain, shard_sync)
      | .ok (.stateHeader _len header) =>
        if ssd.status ≠ .StateDownloadHeader then (chain, shard_sync)
        else
          match ssd.get_header_download with
          | none => (chain, shard_sync)
          | some d =>
            if d.done then (chain, shard_sync)
            else
              match chain.set_state_header m.shard_id sync_hash header with
              | .ok chain' =>
                match process_download_response_m (some d) (.ok _len) with
                | some d' =>
                  (chain', ShardMap.insert shard_sync m.shard_id
                    (ssd.set_header_download d'))
                | none => (chain', shard_sync)
              | .error _ =>
                match process_download_response_m (some d)
                    (.error "State sync set_state_header error") with
                | some d' =>
                  (chain, ShardMap.insert shard_sync m.shard_id
                    (ssd.set_header_download d'))
                | none => (chain, shard_sync)
      | .ok (.statePart _len) =>
        if ssd.status ≠ .StateDownloadParts then (chain, shard_sync)
        else
          match m.part_id with
          | none => (chain, shard_sync)
          | some pid =>
            match ssd.downloads.get? pid.idx with
            | none => (chain, shard_sync)
            | some d =>
              match process_download_response_m (some d) (.ok _len) with
              | some d' =>
                (chain, ShardMap.insert shard_sync m.shard_id
                  { ssd with downloads := ssd.downloads.set pid.idx d' })
              | none => (chain, shard_sync)

/-- `process_downloaded_parts`: drain every pending message in order. -/
def process_downloaded_parts_m (sync_hash : Hash) (chain : Chain)
    (shard_sync : ShardMap) (msgs : List StateSyncGetFileResult) :
    Chain × ShardMap :=
  msgs.foldl (drain_one sync_hash) (chain, shard_sync)

/-- `sync_shards_download_header_status` (src lines 792-831). Returns the
updated shard record, `(download_timeout, run_me)`, and an error when
`get_state_header` fails in the done branch. Indexing `downloads[0]` on an
empty vector is the out-of-bounds panic. -/
def sync_shards_download_header_status_m (timeout : Int) (chain : Chain)
    (shard_id : ShardId) (sync_hash : Hash) (now : Int)
    (ssd : ShardSyncDownload) :
    ShardSyncDownload × Bool × Bool × Option SyncErr :=
  match ssd.downloads.head? with
  | none => (ssd, false, false, some .panicIndexOutOfBounds)
  | some download =>
    if download.done then
      match chain.get_state_header shard_id sync_hash with
      | .error e => (ssd, false, false, some e)
      | .ok sh =>
        (ShardSyncDownload.new_download_state_parts now sh.num_state_parts,
          false, true, none)
    else
      let download_timeout := decide (now - download.prev_update_time > timeout)
      let d' := if download_timeout || download.error then
          { download with run_me := true, error := false, prev_update_time := now }
        else download
      ({ ssd with downloads := ssd.downloads.set 0 d' },
        download_timeout, d'.run_me, none)

/-- The per-slot body of the loop in `sync_shards_download_parts_status`:
done slots are untouched; a not-done slot is re-armed when it timed out,
or when it has `error` set and a peer target (`last_target.is_some()`). -/
def part_check (timeout : Int) (now : Int) (d : DownloadStatus) : DownloadStatus :=
  if d.done then d
  else
    let part_timeout := decide (now - d.prev_update_time > timeout)
    if part_timeout || d.error then
      if part_timeout || d.last_target.isSome then
        { d with run_me := true, error := false, prev_update_time := now }
      else d
    else d

/-- `sync_shards_download_parts_status` (src lines 838-893): check every
slot, and when all slots are done replace the record by an empty
`StateApplyScheduling` one. Returns `(download_timeout,
run_shard_state_download)` alongside. -/
def sync_shards_download_parts_status_m (timeout : Int) (now : Int)
    (ssd : ShardSyncDownload) : ShardSyncDownload × Bool × Bool :=
  let newDownloads := ssd.downloads.map (part_check timeout now)
  let download_timeout := ssd.downloads.any
    (fun d => !d.done && decide (now - d.prev_update_time > timeout))
  let run_shard := newDownloads.any (fun d => !d.done && d.run_me)
  let parts_done := ssd.downloads.all (fun d => d.done)
  if parts_done then
    ({ downloads := [], status := .StateApplyScheduling },
      download_timeout, run_shard)
  else
    ({ ssd with downloads := newDownloads }, download_timeout, run_shard)

/-- `sync_shards_apply_scheduling_status` (src lines 895-931): read the
persisted header, schedule the apply; on scheduling failure reset to a
fresh header download and clear the persisted parts (whose failure
propagates). -/
def sync_shards_apply_scheduling_status_m (chain : Chain) (shard_id : ShardId)
    (sync_hash : Hash) (now : Int) (ssd : ShardSyncDownload) :
    ShardSyncDownload × Chain × Option SyncErr :=
  match chain.get_state_header shard_id sync_hash with
  | .error e => (ssd, chain, some e)
  | .ok sh =>
    if chain.schedule_apply_ok shard_id sync_hash sh.num_state_parts then
      ({ downloads := [], status := .StateApplyInProgress }, chain, none)
    else
      let ssd' := ShardSyncDownload.new_download_state_header now
      match chain.clear_downloaded_parts shard_id sync_hash sh.num_state_parts with
      | .ok chain' => (ssd', chain', none)
      | .error e => (ssd', chain, some e)

/-- `sync_shards_apply_status` (src lines 933-970): wait for the apply
result; it is removed from the map before `result?` can propagate. On
success: resolve `shard_uid`, re-read the state header, create flat
storage unless the chunk is at genesis, schedule the memtrie load, move
to `StateApplyFinalizing`. -/
def sync_shards_apply_status_m (ss : StateSync) (chain : Chain)
    (shard_id : ShardId) (sync_hash : Hash) (ssd : ShardSyncDownload) :
    StateSync × Chain × ShardSyncDownload × Option SyncErr :=
  match ss.apply_results shard_id with
  | none => (ss, chain, ssd, none)
  | some result =>
    let ss := { ss with apply_results := fun k =>
      if k = shard_id then none else ss.apply_results k }
    match result with
    | .error e => (ss, chain, ssd, some (.chainErr e))
    | .ok _ =>
      match chain.get_block_header sync_hash with
      | .error e => (ss, chain, ssd, some e)
      | .ok hdr =>
        match chain.shard_id_to_uid shard_id hdr.epoch_id with
        | none => (ss, chain, ssd, some (.chainErr (.epochError 0)))
        | some shard_uid =>
          match chain.get_state_header shard_id sync_hash with
          | .error e => (ss, chain, ssd, some e)
          | .ok sh =>
            let block_hash := sh.chunk_prev_block
            if block_hash = 0 then
              (ss, chain,
                { downloads := [], status := .StateApplyFinalizing }, none)
            else
              match chain.create_flat_storage shard_uid with
              | .error e => (ss, chain, ssd, some e)
              | .ok chain' =>
                (ss, chain',
                  { downloads := [], status := .StateApplyFinalizing }, none)

/-- `sync_shards_apply_finalizing_status_impl` (src lines 1011-1041): wait
for the memtrie result (removed on sight), finalize, then either schedule
resharding or become `StateSyncDone`. The returned `Bool` is
`shard_sync_done`. -/
def sync_shards_apply_finalizing_status_impl_m (ss : StateSync) (chain : Chain)
    (shard_uid : ShardUId) (sync_hash : Hash) (need_to_reshard : Bool)
    (ssd : ShardSyncDownload) :
    StateSync × Chain × ShardSyncDownload × Bool × Option SyncErr :=
  match ss.memtrie_results shard_uid with
  | none => (ss, chain, ssd, false, none)
  | some result =>
    let ss := { ss with memtrie_results := fun k =>
      if k = shard_uid then none else ss.memtrie_results k }
    match result with
    | .error e => (ss, chain, ssd, false, some (.chainErr e))
    | .ok _ =>
      match chain.set_state_finalize shard_uid.shard_id sync_hash with
      | .error e => (ss, chain, ssd, false, some e)
      | .ok chain' =>
        if need_to_reshard then
          (ss, chain',
            { downloads := [], status := .ReshardingScheduling }, false, none)
        else
          (ss, chain',
            { downloads := [], status := .StateSyncDone }, true, none)

/-- `sync_shards_apply_finalizing_status` (src lines 979-1009): on an impl
error, reset to a fresh header download and clear the persisted parts;
failures of `get_state_header` / `clear_downloaded_parts` take precedence
over the original error, which is otherwise re-returned. -/
def sync_shards_apply_finalizing_status_m (ss : StateSync) (chain : Chain)
    (shard_uid : ShardUId) (sync_hash : Hash) (now : Int)
    (need_to_reshard : Bool) (ssd : ShardSyncDownload) :
    StateSync × Chain × ShardSyncDownload × Bool × Option SyncErr :=
  match sync_shards_apply_finalizing_status_impl_m ss chain shard_uid sync_hash
      need_to_reshard ssd with
  | (ss', chain', ssd', done, none) => (ss', chain', ssd', done, none)
  | (ss', chain', _ssd', _done, some e) =>
    let ssd'' := ShardSyncDownload.new_download_state_header now
    match chain'.get_state_header shard_uid.shard_id sync_hash with
    | .error e2 => (ss', chain', ssd'', false, some e2)
    | .ok sh =>
      match chain'.clear_downloaded_parts shard_uid.shard_id sync_hash
          sh.num_state_parts with
      | .error e3 => (ss', chain', ssd'', false, some e3)
      | .ok chain'' => (ss', chain'', ssd'', false, some e)

/-- Maximum number of state parts to request per peer on each round. -/
def MAX_STATE_PART_REQUEST : Nat := 16

/-- `request_part_from_peers` (src lines 1230-1263): clear `run_me`,
bump the attempt counter (the `RouteNotFound` continuation fires after the
tick and is not part of this function's state change). -/
def request_part_from_peers_m (d : DownloadStatus) : DownloadStatus :=
  { d with run_me := false, state_requests_count := d.state_requests_count + 1 }

/-- Outcome of `request_part_from_external_storage` on the slot and the
semaphore: `spawned` records whether a fetch task was launched. -/
structure ExtPartReqOut where
  download : DownloadStatus
  permits : Nat
  spawned : Bool
deriving Repr, DecidableEq

/-- `request_part_from_external_storage` (src lines 1155-1227), slot and
semaphore behaviour: no-op when `run_me` was already false; otherwise
clear `run_me`, bump the counter, clear `last_target`; `try_acquire` with
no available permit re-arms `run_me` (both `NoPermits` and `Closed`),
otherwise one permit is consumed and the fetch task is spawned. -/
def request_part_from_external_storage_m (d : DownloadStatus) (permits : Nat) :
    ExtPartReqOut :=
  if d.run_me = false then ⟨d, permits, false⟩
  else
    let d' := { d with
      run_me := false
      state_requests_count := d.state_requests_count + 1
      last_target := none }
    if permits = 0 then ⟨{ d' with run_me := true }, permits, false⟩
    else ⟨d', permits - 1, true⟩

/-- `request_header_from_external_storage` (src lines 1079-1121), slot
behaviour: the swap on `run_me` guards dispatch; the semaphore is not
consulted at all for headers. -/
def request_header_from_external_storage_m (d : DownloadStatus) :
    DownloadStatus × Bool :=
  if d.run_me = false then (d, false)
  else
    ({ d with
        run_me := false
        state_requests_count := d.state_requests_count + 1
        last_target := none },
      true)

/-- Accumulator of the loop in `request_shard_parts`: remaining permits,
peer requests already sent this call, cached `(state_root, num_parts)`,
the dispatched part ids, and a possible panic. -/
structure PartsLoopAcc where
  permits : Nat
  peer_requests_sent : Nat
  cached : Option (Hash × Nat)
  peer_reqs : List Nat
  ext_reqs : List Nat
  err : Option SyncErr
deriving Repr, DecidableEq

/-- Body of one iteration of `request_shard_parts` (src lines 581-660) for
a slot with `run_me = true`: route to external storage when configured and
the attempt count reached the threshold (skipping when the semaphore shows
no permit), otherwise to a peer subject to the `MAX_STATE_PART_REQUEST`
cap; the chain/epoch `.unwrap()`s are panics; failing block-header lookups
on the peer path only log. -/
def request_shard_parts_body (ext : Option StateSyncExternalCfg) (chain : Chain)
    (shard_id : ShardId) (sync_hash : Hash) (part_id : Nat)
    (d : DownloadStatus) (acc : PartsLoopAcc) : DownloadStatus × PartsLoopAcc :=
  let use_external := match ext with
    | some cfg => decide (d.state_requests_count ≥ cfg.peer_attempts_threshold)
    | none => false
  if use_external then
    if acc.permits = 0 then (d, acc)
    else
      match chain.headers sync_hash with
      | none => (d, { acc with err := some .panicUnwrapFailed })
      | some hdr =>
        match chain.epoch_height hdr.epoch_id with
        | none => (d, { acc with err := some .panicUnwrapFailed })
        | some _eh =>
          let cached := match acc.cached with
            | some v => some v
            | none => (chain.state_headers shard_id sync_hash).map
                (fun sh => (sh.chunk_prev_state_root, sh.num_state_parts))
          match cached with
          | none => (d, { acc with err := some .panicUnwrapFailed })
          | some rc =>
            let r := request_part_from_external_storage_m d acc.permits
            (r.download,
              { acc with
                cached := some rc
                permits := r.permits
                ext_reqs := if r.spawned then acc.ext_reqs ++ [part_id]
                  else acc.ext_reqs })
  else
    if acc.peer_requests_sent ≥ MAX_STATE_PART_REQUEST then (d, acc)
    else
      match chain.headers sync_hash with
      | none => (d, acc)
      | some h1 =>
        match chain.headers h1.prev_hash with
        | none => (d, acc)
        | some _h2 =>
          (request_part_from_peers_m d,
            { acc with
              peer_requests_sent := acc.peer_requests_sent + 1
              peer_reqs := acc.peer_reqs ++ [part_id] })

/-- The loop of `request_shard_parts` over the enumerated downloads:
`parts_to_fetch` filters on `run_me`; a panic aborts the remaining
iterations. -/
def request_shard_parts_go (ext : Option StateSyncExternalCfg) (chain : Chain)
    (shard_id : ShardId) (sync_hash : Hash) :
    List DownloadStatus → Nat → PartsLoopAcc →
    List DownloadStatus × PartsLoopAcc
  | [], _, acc => ([], acc)
  | d :: rest, part_id, acc =>
    if d.run_me = false then
      let r := request_shard_parts_go ext chain shard_id sync_hash rest
        (part_id + 1) acc
      (d :: r.1, r.2)
    else
      let b := request_shard_parts_body ext chain shard_id sync_hash part_id d acc
      if b.2.err.isSome then (b.1 :: rest, b.2)
      else
        let r := request_shard_parts_go ext chain shard_id sync_hash rest
          (part_id + 1) b.2
        (b.1 :: r.1, r.2)

/-- Result of `request_shard_parts` for one shard in one tick. -/
structure PartsReqOut where
  ssd : ShardSyncDownload
  permits : Nat
  peer_reqs : List Nat
  ext_reqs : List Nat
  err : Option SyncErr
deriving Repr, DecidableEq

/-- `request_shard_parts` (src lines 568-661). -/
def request_shard_parts_m (ext : Option StateSyncExternalCfg) (chain : Chain)
    (shard_id : ShardId) (sync_hash : Hash) (ssd : ShardSyncDownload)
    (permits : Nat) : PartsReqOut :=
  let acc : PartsLoopAcc := ⟨permits, 0, none, [], [], none⟩
  let r := request_shard_parts_go ext chain shard_id sync_hash ssd.downloads 0 acc
  ⟨{ ssd with downloads := r.1 }, r.2.permits, r.2.peer_reqs, r.2.ext_reqs, r.2.err⟩

/-- Result of `request_shard_header`. -/
structure HeaderReqOut where
  ssd : ShardSyncDownload
  peer_req : Option PeerId
  ext_req : Bool
  err : Option SyncErr
deriving Repr, DecidableEq

/-- `request_shard_header` (src lines 509-565): with external storage
configured, fetch from external (after two infallible-by-assumption chain
lookups, modelled as possible panics); otherwise pick a peer (`choose` on
the non-empty target list, modelled as its head), `assert!(run_me)`,
clear `run_me`, bump the counter, record `last_target`. -/
def request_shard_header_m (ext : Option StateSyncExternalCfg) (chain : Chain)
    (shard_id : ShardId) (sync_hash : Hash) (possible_targets : List PeerId)
    (ssd : ShardSyncDownload) : HeaderReqOut :=
  match ssd.get_header_download with
  | none => ⟨ssd, none, false, some .panicUnwrapFailed⟩
  | some d =>
    match ext with
    | some _cfg =>
      match chain.headers sync_hash with
      | none => ⟨ssd, none, false, some .panicUnwrapFailed⟩
      | some hdr =>
        match chain.epoch_height hdr.epoch_id with
        | none => ⟨ssd, none, false, some .panicUnwrapFailed⟩
        | some _eh =>
          let r := request_header_from_external_storage_m d
          ⟨ssd.set_header_download r.1, none, r.2, none⟩
    | none =>
      match possible_targets.head? with
      | none => ⟨ssd, none, false, some .panicUnwrapFailed⟩
      | some peer_id =>
        if d.run_me = false then ⟨ssd, none, false, some .panicAssertHeaderRunMe⟩
        else
          let d' := { d with
            run_me := false
            state_requests_count := d.state_requests_count + 1
            last_target := some peer_id }
          ⟨ssd.set_header_download d', some peer_id, false, none⟩

/-- Result of `request_shard`. -/
structure RequestShardOut where
  ssd : ShardSyncDownload
  permits : Nat
  err : Option SyncErr
deriving Repr, DecidableEq

/-- `request_shard` (src lines 458-506): in header phase compute the
possible targets (empty when external storage is configured; do nothing
at all when peers-only and no peer is known) and delegate; in parts phase
delegate to `request_shard_parts`; any other status does nothing. -/
def request_shard_m (ext : Option StateSyncExternalCfg) (chain : Chain)
    (shard_id : ShardId) (sync_hash : Hash) (peers : List PeerId)
    (ssd : ShardSyncDownload) (permits : Nat) : RequestShardOut :=
  match ssd.status with
  | .StateDownloadHeader =>
    match ext with
    | some _ =>
      let r := request_shard_header_m ext chain shard_id sync_hash [] ssd
      ⟨r.ssd, permits, r.err⟩
    | none =>
      if peers = [] then ⟨ssd, permits, none⟩
      else
        let r := request_shard_header_m ext chain shard_id sync_hash peers ssd
        ⟨r.ssd, permits, r.err⟩
  | .StateDownloadParts =>
    let r := request_shard_parts_m ext chain shard_id sync_hash ssd permits
    ⟨r.ssd, r.permits, r.err⟩
  | _ => ⟨ssd, permits, none⟩

/-- Output of one shard's status handler inside the loop of
`sync_shards_status`. -/
structure HandlerOut where
  ss : StateSync
  chain : Chain
  ssd : ShardSyncDownload
  run_download : Bool
  shard_sync_done : Bool
  err : Option SyncErr

/-- The `match &shard_sync_download.status` of `sync_shards_status`
(src lines 244-299): dispatch to the per-state handler; the resharding
states panic; `StateSyncDone` sets `shard_sync_done`. `run0` is the value
`run_shard_state_download` got from the `or_insert_with` closure; only the
header and parts handlers overwrite it. -/
def handle_shard_status (ss : StateSync) (chain : Chain) (sync_hash : Hash)
    (now : Int) (need_to_reshard : Bool) (shard_uid : ShardUId)
    (shard_id : ShardId) (ssd : ShardSyncDownload) (run0 : Bool) : HandlerOut :=
  match ssd.status with
  | .StateDownloadHeader =>
    let r := sync_shards_download_header_status_m ss.timeout chain shard_id
      sync_hash now ssd
    ⟨ss, chain, r.1, r.2.2.1, false, r.2.2.2⟩
  | .StateDownloadParts =>
    let r := sync_shards_download_parts_status_m ss.timeout now ssd
    ⟨ss, chain, r.1, r.2.2, false, none⟩
  | .StateApplyScheduling =>
    let r := sync_shards_apply_scheduling_status_m chain shard_id sync_hash now ssd
    ⟨ss, r.2.1, r.1, run0, false, r.2.2⟩
  | .StateApplyInProgress =>
    let r := sync_shards_apply_status_m ss chain shard_id sync_hash ssd
    ⟨r.1, r.2.1, r.2.2.1, run0, false, r.2.2.2⟩
  | .StateApplyFinalizing =>
    let r := sync_shards_apply_finalizing_status_m ss chain shard_uid sync_hash
      now need_to_reshard ssd
    ⟨r.1, r.2.1, r.2.2.1, run0, r.2.2.2.1, r.2.2.2.2⟩
  | .ReshardingScheduling => ⟨ss, chain, ssd, run0, false, some .panicResharding⟩
  | .ReshardingApplying => ⟨ss, chain, ssd, run0, false, some .panicResharding⟩
  | .StateSyncDone => ⟨ss, chain, ssd, run0, true, none⟩

/-- The tail of one shard-loop iteration: store the handler's shard record
back into the map, propagate a handler error, and otherwise issue the
request via `request_shard` when `run_shard_state_download` ended up
true. -/
def advance_tail (h : HandlerOut) (map : ShardMap) (sync_hash : Hash)
    (peers : List PeerId) (shard_id : ShardId) :
    StateSync × Chain × ShardMap × Bool × Option SyncErr :=
  match h.err with
  | some e => (h.ss, h.chain, ShardMap.insert map shard_id h.ssd,
      h.shard_sync_done, some e)
  | none =>
    if h.run_download then
      let r := request_shard_m h.ss.external h.chain shard_id sync_hash peers
        h.ssd (StateSync.externalPermits h.ss)
      (StateSync.setExternalPermits h.ss r.permits, h.chain,
        ShardMap.insert map shard_id r.ssd, h.shard_sync_done, r.err)
    else
      (h.ss, h.chain, ShardMap.insert map shard_id h.ssd,
        h.shard_sync_done, none)

/-- One iteration of the `for shard_id in tracking_shards` loop of
`sync_shards_status` (src lines 233-337): look up or create the shard
entry (a fresh entry sets `run_shard_state_download`), run the status
handler, and finish with `advance_tail`. -/
def advance_shard (ss : StateSync) (chain : Chain) (map : ShardMap)
    (sync_hash : Hash) (peers : List PeerId) (now : Int)
    (prev_layout_version : Nat) (need_to_reshard : Bool) (shard_id : ShardId) :
    StateSync × Chain × ShardMap × Bool × Option SyncErr :=
  let shard_uid : ShardUId := ⟨prev_layout_version, shard_id⟩
  let run0 := (map shard_id).isNone
  let ssd0 := (map shard_id).getD (ShardSyncDownload.new_download_state_header now)
  advance_tail
    (handle_shard_status ss chain sync_hash now need_to_reshard shard_uid
      shard_id ssd0 run0)
    map sync_hash peers shard_id

/-- The shard loop of `sync_shards_status`, folding `all_done &=
shard_sync_done` and stopping at the first propagated error or panic. -/
def sync_shards_loop (sync_hash : Hash) (peers : List PeerId) (now : Int)
    (prev_layout_version : Nat) (need_to_reshard : Bool) :
    StateSync → Chain → ShardMap → List ShardId → Bool →
    StateSync × Chain × ShardMap × Except SyncErr Bool
  | ss, chain, map, [], all_done => (ss, chain, map, .ok all_done)
  | ss, chain, map, shard_id :: rest, all_done =>
    match advance_shard ss chain map sync_hash peers now prev_layout_version
        need_to_reshard shard_id with
    | (ss', chain', map', _done, some e) => (ss', chain', map', .error e)
    | (ss', chain', map', done, none) =>
      sync_shards_loop sync_hash peers now prev_layout_version need_to_reshard
        ss' chain' map' rest (all_done && done)

/-- `sync_shards_status` (src lines 203-340): resolve the epochs of
`sync_hash` and of its previous block, compare the two shard layouts
(panicking when they differ), resolve `need_to_reshard`, then run the
shard loop starting from `all_done = true`. -/
def sync_shards_status_m (ss : StateSync) (chain : Chain) (map : ShardMap)
    (sync_hash : Hash) (peers : List PeerId) (tracking : List ShardId)
    (now : Int) : StateSync × Chain × ShardMap × Except SyncErr Bool :=
  match chain.get_block_header sync_hash with
  | .error e => (ss, chain, map, .error e)
  | .ok h1 =>
    match chain.get_block_header h1.prev_hash with
    | .error e => (ss, chain, map, .error e)
    | .ok h0 =>
      match chain.shard_layout h0.epoch_id with
      | none => (ss, chain, map, .error (.chainErr (.epochError 1)))
      | some prev_shard_layout =>
        match chain.shard_layout h1.epoch_id with
        | none => (ss, chain, map, .error (.chainErr (.epochError 2)))
        | some cur_shard_layout =>
          if prev_shard_layout ≠ cur_shard_layout then
            (ss, chain, map, .error .panicShardLayoutChanged)
          else
            match chain.will_shard_layout_change h1.prev_hash with
            | none => (ss, chain, map, .error (.chainErr (.epochError 3)))
            | some need_to_reshard =>
              sync_shards_loop sync_hash peers now prev_shard_layout.version
                need_to_reshard ss chain map tracking true

/-- Everything `run` returns or leaves behind: the result, the `StateSync`
state, the chain, and the shard map. -/
structure RunOut where
  result : Except SyncErr StateSyncResult
  ss : StateSync
  chain : Chain
  map : ShardMap

/-- `StateSync::run` (src lines 667-719): empty `tracking_shards` returns
`Completed` immediately (before the drain); otherwise drain the MPSC
channel, advance every tracked shard, and return `Completed` iff
`all_done`. -/
def StateSync.run (ss : StateSync) (sync_hash : Hash) (map : ShardMap)
    (chain : Chain) (peers : List PeerId) (tracking : List ShardId)
    (now : Int) : RunOut :=
  if tracking = [] then ⟨.ok .Completed, ss, chain, map⟩
  else
    let drained := process_downloaded_parts_m sync_hash chain map ss.channel
    let ss1 := { ss with channel := [] }
    let r := sync_shards_status_m ss1 drained.1 drained.2 sync_hash peers
      tracking now
    match r.2.2.2 with
    | .error e => ⟨.error e, r.1, r.2.1, r.2.2.1⟩
    | .ok all_done =>
      ⟨.ok (if all_done then .Completed else .InProgress), r.1, r.2.1, r.2.2.1⟩

/-- The peer response carried by `ShardStateSyncResponse`: an optional
header and an optional `(part_id, data)` pair. -/
structure ShardStateSyncResponseM where
  header : Option StateHeaderData
  part : Option (Nat × Nat)
deriving Repr, DecidableEq

/-- `update_download_on_state_response_message` (src lines 721-784):
network-response intake for peer fetches. Returns the updated shard
record, chain, and the `StatePartReceived` events published. -/
def update_download_on_state_response_message_m (chain : Chain)
    (ssd : ShardSyncDownload) (hash : Hash) (shard_id : ShardId)
    (state_response : ShardStateSyncResponseM) :
    Chain × ShardSyncDownload × List (ShardId × Nat) :=
  match ssd.status with
  | .StateDownloadHeader =>
    match ssd.get_header_download with
    | none => (chain, ssd, [])
    | some d =>
      match state_response.header with
      | some header =>
        if d.done then (chain, ssd, [])
        else
          match chain.set_state_header shard_id hash header with
          | .ok chain' => (chain', ssd.set_header_download { d with done := true }, [])
          | .error _ => (chain, ssd.set_header_download { d with error := true }, [])
      | none =>
        if d.done then (chain, ssd, [])
        else (chain, ssd.set_header_download { d with error := true }, [])
  | .StateDownloadParts =>
    match state_response.part with
    | none => (chain, ssd, [])
    | some (part_id, data) =>
      let num_parts := ssd.downloads.length
      if part_id ≥ num_parts then (chain, ssd, [])
      else
        match ssd.downloads.get? part_id with
        | none => (chain, ssd, [])
        | some d =>
          if d.done then (chain, ssd, [])
          else
            match chain.set_state_part shard_id hash part_id data with
            | .ok chain' =>
              (chain', { ssd with downloads :=
                  ssd.downloads.set part_id { d with done := true } },
                [(shard_id, part_id)])
            | .error _ =>
              (chain, { ssd with downloads :=
                  ssd.downloads.set part_id { d with error := true } }, [])
  | _ => (chain, ssd, [])

/-- The loop of `get_epoch_start_sync_hash` (src lines 443-454), with fuel
standing in for the chain's finite height. -/
def epoch_start_loop (chain : Chain) : Nat → EpochId → Hash → Hash →
    Except SyncErr Hash
  | 0, _, _, _ => .error .fuelExhausted
  | fuel + 1, epoch_id, hash, prev_hash =>
    if prev_hash = 0 then .ok hash
    else
      match chain.get_block_header prev_hash with
      | .error e => .error e
      | .ok header =>
        if epoch_id ≠ header.epoch_id then .ok hash
        else epoch_start_loop chain fuel header.epoch_id header.hash
          header.prev_hash

/-- `StateSync::get_epoch_start_sync_hash` (src lines 435-455): walk
prev-hashes while the epoch is unchanged; return the last hash in the
epoch, or the hash whose prev is the default hash. -/
def get_epoch_start_sync_hash_m (chain : Chain) (sync_hash : Hash)
    (fuel : Nat) : Except SyncErr Hash :=
  match chain.get_block_header sync_hash with
  | .error e => .error e
  | .ok header =>
    epoch_start_loop chain fuel header.epoch_id header.hash header.prev_hash

/-- A chain whose header store is keyed consistently: the header found at
`h` has `hash = h` (true of a content-addressed store by construction). -/
def Chain.WellFormed (c : Chain) : Prop :=
  ∀ h hdr, c.headers h = some hdr → hdr.hash = h

/-- Global state of the external-fetch concurrency model: available
semaphore permits and the outstanding part- and header-fetch tasks. -/
structure ExtFetchState where
  permits : Nat
  part_tasks : Nat
  header_tasks : Nat
deriving Repr, DecidableEq

/-- Events on the external-storage path, as the source implements them:
a part dispatch goes through `try_acquire` (acquire on success, re-arm on
`NoPermits`); a finishing part task drops its permit; header dispatch and
completion (`request_header_from_external_storage`) never touch the
semaphore. -/
inductive ExtStep : ExtFetchState → ExtFetchState → Prop
  | dispatch_part_acquired (s : ExtFetchState) (h : 0 < s.permits) :
      ExtStep s { s with permits := s.permits - 1, part_tasks := s.part_tasks + 1 }
  | dispatch_part_no_permits (s : ExtFetchState) (h : s.permits = 0) :
      ExtStep s s
  | finish_part (s : ExtFetchState) (h : 0 < s.part_tasks) :
      ExtStep s { s with permits := s.permits + 1, part_tasks := s.part_tasks - 1 }
  | dispatch_header (s : ExtFetchState) :
      ExtStep s { s with header_tasks := s.header_tasks + 1 }
  | finish_header (s : ExtFetchState) (h : 0 < s.header_tasks) :
      ExtStep s { s with header_tasks := s.header_tasks - 1 }

/-- States reachable from the constructed semaphore: `capacity` permits
(`num_concurrent_requests`, or the catch-up variant), no tasks. -/
inductive ExtReachable (capacity : Nat) : ExtFetchState → Prop
  | init : ExtReachable capacity ⟨capacity, 0, 0⟩
  | step {s t : ExtFetchState} : ExtReachable capacity s → ExtStep s t →
      ExtReachable capacity t

/-- The slot invariant of the claim: a done slot is neither armed nor in
error. -/
def slotInv (d : DownloadStatus) : Prop :=
  d.done = true → d.run_me = false ∧ d.error = false

/-- The invariant over a shard record, index formulation. -/
def ssdInv (s : ShardSyncDownload) : Prop :=
  ∀ i d, s.downloads.get? i = some d → slotInv d

/-- The invariant over the whole shard map. -/
def mapInv (m : ShardMap) : Prop :=
  ∀ k s, m k = some s → ssdInv s

/-- Safety of one pending channel message w.r.t. a shard map: a successful
completion must target a slot that is not armed and not in error (a slot
that still has `run_me` or `error` set from a concurrent peer-path attempt
would end up `done` with those flags uncleared). -/
def msgOkSafe (m : ShardMap) (msg : StateSyncGetFileResult) : Prop :=
  ∀ ssd, m msg.shard_id = some ssd →
    match msg.result with
    | .error _ => True
    | .ok (.stateHeader _ _) =>
      ∀ d, ssd.get_header_download = some d → d.run_me = false ∧ d.error = false
    | .ok (.statePart _) =>
      ∀ pid d, msg.part_id = some pid → ssd.downloads.get? pid.idx = some d →
        d.run_me = false ∧ d.error = false

/-- Two shard records agreeing on status and, slot by slot, on the
`run_me` and `error` flags (the fields the drain never writes). -/
def sameRE (a b : ShardSyncDownload) : Prop :=
  a.status = b.status ∧
  ∀ i, (a.downloads.get? i).map (fun d => (d.run_me, d.error)) =
       (b.downloads.get? i).map (fun d => (d.run_me, d.error))

/-- Pointwise `sameRE` between two shard maps. -/
def mapRE (m m' : ShardMap) : Prop :=
  ∀ k, (m k = none ∧ m' k = none) ∨
    ∃ a b, m k = some a ∧ m' k = some b ∧ sameRE a b

/-! Concrete instances used by witnesses and counterexamples. -/

/-- Base environment for the concrete instances: block 10 (epoch 5) on top
of block 9 (epoch 5, previous hash the default hash), one layout, every
store write succeeding. -/
def baseChain : Chain :=
  { headers := fun h =>
      if h = 10 then some ⟨10, 9, 5⟩ else if h = 9 then some ⟨9, 0, 5⟩ else none
    state_headers := fun s h => if s = 0 ∧ h = 10 then some ⟨2, 0, 0⟩ else none
    set_state_header_ok := fun _ _ _ => true
    set_state_part_ok := fun _ _ _ _ => true
    schedule_apply_ok := fun _ _ _ => true
    clear_parts_ok := fun _ _ _ => true
    create_flat_storage_ok := fun _ => true
    set_state_finalize_ok := fun _ _ => true
    shard_layout := fun e => if e = 5 then some ⟨1, 0⟩ else none
    will_shard_layout_change := fun _ => some false
    shard_id_to_uid := fun s _ => some ⟨1, s⟩
    epoch_height := fun _ => some 1
    stored_parts := []
    flat_created := []
    finalized := [] }

/-- A part slot re-armed by timeout and marked `error` by a failed peer
response, while an external fetch success for it sits in the channel. -/
def c2SlotA : DownloadStatus :=
  { run_me := true, done := false, error := true, state_requests_count := 3,
    last_target := some 7, start_time := 100, prev_update_time := 100 }

/-- A quiet in-flight part slot. -/
def c2SlotB : DownloadStatus :=
  { run_me := false, done := false, error := false, state_requests_count := 1,
    last_target := some 7, start_time := 100, prev_update_time := 100 }

/-- A successful external part completion for shard 0, part 0, at the
current sync hash. -/
def c2Msg : StateSyncGetFileResult :=
  { sync_hash := 10, shard_id := 0, part_id := some ⟨0, 2⟩,
    result := .ok (.statePart 5) }

def c2SS : StateSync :=
  { timeout := 60, external := none, apply_results := fun _ => none,
    memtrie_results := fun _ => none, channel := [c2Msg] }

def c2Map : ShardMap :=
  fun s => if s = 0 then some ⟨[c2SlotA, c2SlotB], .StateDownloadParts⟩ else none

/-- A shard map satisfying the slot invariant: one freshly created header
download. -/
def c2wMap : ShardMap :=
  fun s => if s = 0 then some (ShardSyncDownload.new_download_state_header 100)
    else none

def c2wSS : StateSync :=
  { timeout := 60, external := none, apply_results := fun _ => none,
    memtrie_results := fun _ => none, channel := [] }

/-- State for the C1 instances: shard 0 waiting in `StateApplyInProgress`
with both the apply result and the memtrie result already delivered. -/
def c1SS : StateSync :=
  { timeout := 60, external := none,
    apply_results := fun s => if s = 0 then some (.ok ()) else none,
    memtrie_results := fun u => if u = ⟨1, 0⟩ then some (.ok ()) else none,
    channel := [] }

def c1Map : ShardMap :=
  fun s => if s = 0 then some ⟨[], .StateApplyInProgress⟩ else none

/-- A map with shard 0 already fully synced. -/
def c1wMap : ShardMap :=
  fun s => if s = 0 then some ⟨[], .StateSyncDone⟩ else none

/-- Chain whose epoch changes between block 9 (epoch 4) and block 10
(epoch 5), with two different shard layouts. -/
def layoutChain : Chain :=
  { baseChain with
    headers := fun h =>
      if h = 10 then some ⟨10, 9, 5⟩ else if h = 9 then some ⟨9, 0, 4⟩ else none
    shard_layout := fun e =>
      if e = 5 then some ⟨1, 1⟩ else if e = 4 then some ⟨1, 0⟩ else none }

/-- Chain for the idempotence witness: blocks 3 and 2 in epoch 1 on top of
the genesis block 1 (epoch 0). -/
def epochChain : Chain :=
  { baseChain with
    headers := fun h =>
      if h = 3 then some ⟨3, 2, 1⟩
      else if h = 2 then some ⟨2, 1, 1⟩
      else if h = 1 then some ⟨1, 0, 0⟩ else none }

/-- The exit condition established by `get_epoch_start_sync_hash`: the
result is a stored block whose previous block either is the default hash
or lies in a different epoch. -/
def epochStartExit (c : Chain) (r : Hash) : Prop :=
  ∃ hdr, c.headers r = some hdr ∧
    (hdr.prev_hash = 0 ∨
      ∃ hdr2, c.headers hdr.prev_hash = some hdr2 ∧ hdr2.epoch_id ≠ hdr.epoch_id)

/-- A parts-phase shard record with its single part done. -/
def c4Ssd : ShardSyncDownload :=
  ⟨[{ c2SlotB with done := true }], .StateDownloadParts⟩

/-- A clean slot whose external fetch just failed. -/
def c5Slot : DownloadStatus :=
  { run_me := false, done := false, error := false, state_requests_count := 4,
    last_target := none, start_time := 100, prev_update_time := 100 }

/-- A failed external completion message. -/
def c5Msg : StateSyncGetFileResult :=
  { sync_hash := 10, shard_id := 0, part_id := some ⟨0, 2⟩,
    result := .error "external fetch failed" }

/-- A completion message anchored at a different sync hash. -/
def c7Msg : StateSyncGetFileResult :=
  { sync_hash := 11, shard_id := 0, part_id := some ⟨0, 2⟩,
    result := .ok (.statePart 5) }

/-- Part ids of the `StateRequestPart` messages dispatched to peers by one
`request_shard` call: the `peer_reqs` of the `request_shard_parts` call it
delegates to in the parts phase, and nothing in any other phase
(`request_shard_header` sends at most one header request, never a part
request). -/
def shard_peer_part_reqs (ext : Option StateSyncExternalCfg) (chain : Chain)
    (shard_id : ShardId) (sync_hash : Hash) (ssd : ShardSyncDownload)
    (permits : Nat) : List Nat :=
  match ssd.status with
  | .StateDownloadParts =>
    (request_shard_parts_m ext chain shard_id sync_hash ssd permits).peer_reqs
  | _ => []

/-- Part ids dispatched to peers during one iteration of the shard loop:
replay `advance_shard`'s handler on the same inputs and, when it set
`run_shard_state_download` without a propagated error, read off the
dispatched ids of the very `request_shard` call that `advance_tail`
performs (same arguments, in particular the handler's post-state). -/
def advance_peer_part_reqs (ss : StateSync) (chain : Chain) (map : ShardMap)
    (sync_hash : Hash) (now : Int) (prev_layout_version : Nat)
    (need_to_reshard : Bool) (shard_id : ShardId) : List Nat :=
  let shard_uid : ShardUId := ⟨prev_layout_version, shard_id⟩
  let run0 := (map shard_id).isNone
  let ssd0 := (map shard_id).getD (ShardSyncDownload.new_download_state_header now)
  let h := handle_shard_status ss chain sync_hash now need_to_reshard shard_uid
    shard_id ssd0 run0
  match h.err with
  | some _ => []
  | none =>
    if h.run_download then
      shard_peer_part_reqs h.ss.external h.chain shard_id sync_hash h.ssd
        (StateSync.externalPermits h.ss)
    else []

/-- Number of state-part requests dispatched to peers for shard `target`
over the shard loop of `sync_shards_status`: the loop state is advanced by
the same `advance_shard` the loop itself uses, each visit of `target`
contributes the dispatches of that iteration, and a propagated error stops
the loop after the iteration that raised it, as in `sync_shards_loop`
(requests sent before an in-call panic are on the wire and counted). -/
def loop_peer_part_reqs (sync_hash : Hash) (peers : List PeerId) (now : Int)
    (prev_layout_version : Nat) (need_to_reshard : Bool) :
    StateSync → Chain → ShardMap → List ShardId → ShardId → Nat
  | _, _, _, [], _ => 0
  | ss, chain, map, shard_id :: rest, target =>
    let n := if shard_id = target then
        (advance_peer_part_reqs ss chain map sync_hash now prev_layout_version
          need_to_reshard shard_id).length
      else 0
    match advance_shard ss chain map sync_hash peers now prev_layout_version
        need_to_reshard shard_id with
    | (_, _, _, _, some _) => n
    | (ss', chain', map', _, none) =>
      n + loop_peer_part_reqs sync_hash peers now prev_layout_version
        need_to_reshard ss' chain' map' rest target

/-- Number of state-part requests dispatched to peers for shard `target`
in one `run` tick: mirror `run` (empty tracking returns before any
request; the drain sends nothing) and the epoch/layout resolution of
`sync_shards_status` (whose failure aborts the tick before the loop), then
count over the shard loop. -/
def run_peer_part_reqs (ss : StateSync) (sync_hash : Hash) (map : ShardMap)
    (chain : Chain) (peers : List PeerId) (tracking : List ShardId)
    (now : Int) (target : ShardId) : Nat :=
  if tracking = [] then 0
  else
    let drained := process_downloaded_parts_m sync_hash chain map ss.channel
    let ss1 := { ss with channel := [] }
    match drained.1.get_block_header sync_hash with
    | .error _ => 0
    | .ok h1 =>
      match drained.1.get_block_header h1.prev_hash with
      | .error _ => 0
      | .ok h0 =>
        match drained.1.shard_layout h0.epoch_id with
        | none => 0
        | some prev_shard_layout =>
          match drained.1.shard_layout h1.epoch_id with
          | none => 0
          | some cur_shard_layout =>
            if prev_shard_layout ≠ cur_shard_layout then 0
            else
              match drained.1.will_shard_layout_change h1.prev_hash with
              | none => 0
              | some need_to_reshard =>
                loop_peer_part_reqs sync_hash peers now
                  prev_shard_layout.version need_to_reshard ss1 drained.1
                  drained.2 tracking target

/-- An armed, flagless part slot awaiting dispatch. -/
def c8Slot : DownloadStatus :=
  { run_me := true, done := false, error := false, state_requests_count := 0,
    last_target := none, start_time := 100, prev_update_time := 100 }

/-- Shard 0 in the parts phase with 32 armed part slots. -/
def c8Map : ShardMap :=
  fun s => if s = 0 then some ⟨List.replicate 32 c8Slot, .StateDownloadParts⟩
    else none

/-! Theorems: shared utility lemmas first, then one theorem per claim with
its witness or counterexample. -/

theorem shardMap_insert_self (m : ShardMap) (k : ShardId) (v : ShardSyncDownload) :
    ShardMap.insert m k v k = some v := by
  simp [ShardMap.insert]

theorem shardMap_insert_ne (m : ShardMap) (k k' : ShardId) (v : ShardSyncDownload)
    (h : k' ≠ k) : ShardMap.insert m k v k' = m k' := by
  simp [ShardMap.insert, h]

/-- C4: for a shard in the `StateDownloadParts` state, one tick of the
parts handler moves it to `StateApplyScheduling` with a cleared downloads
vector if and only if every one of its slots has `done = true`. -/
theorem c4_parts_transition_iff_all_done (timeout now : Int)
    (ssd : ShardSyncDownload) (hs : ssd.status = .StateDownloadParts) :
    ((sync_shards_download_parts_status_m timeout now ssd).1.status =
        .StateApplyScheduling ∧
      (sync_shards_download_parts_status_m timeout now ssd).1.downloads = []) ↔
    ssd.downloads.all (fun d => d.done) = true := by
  unfold sync_shards_download_parts_status_m
  by_cases hp : ssd.downloads.all (fun d => d.done) = true
  · simp [hp]
  · simp only [Bool.not_eq_true] at hp
    simp [hp, hs]

theorem c4_witness :
    c4Ssd.status = .StateDownloadParts ∧
    (((sync_shards_download_parts_status_m 60 100 c4Ssd).1.status =
        .StateApplyScheduling ∧
      (sync_shards_download_parts_status_m 60 100 c4Ssd).1.downloads = []) ↔
      c4Ssd.downloads.all (fun d => d.done) = true) :=
  ⟨rfl, c4_parts_transition_iff_all_done 60 100 c4Ssd rfl⟩

/-- C5 (amended): a failed external fetch mutates nothing when drained:
the `Err` message is paired with no slot, so neither `error` nor any other
slot flag nor the chain store changes; the slot is re-armed later by the
timeout path alone. -/
theorem c5_amended_external_error_no_slot_mutation (sync_hash : Hash)
    (st : Chain × ShardMap) (m : StateSyncGetFileResult) (e : String)
    (hm : m.result = .error e) :
    drain_one sync_hash st m = st := by
  obtain ⟨c, sm⟩ := st
  unfold drain_one
  split
  · rfl
  · cases hsm : sm m.shard_id with
    | none => simp [hsm]
    | some ssd => simp [hsm, hm]

theorem c5_witness :
    c5Msg.result = .error "external fetch failed" ∧
    drain_one 10 (baseChain, c2Map) c5Msg = (baseChain, c2Map) :=
  ⟨rfl, c5_amended_external_error_no_slot_mutation 10 (baseChain, c2Map) c5Msg
    "external fetch failed" rfl⟩

/-- C5 counterexample: the claim says the transient failure sets the
slot's `error` flag to true; `process_download_response` on `Err` in fact
sets `done := false` and leaves `error` untouched (false here). -/
theorem c5_counterexample :
    process_download_response_m (some c5Slot) (.error "external fetch failed") =
      some { c5Slot with done := false } ∧
    (process_download_response_m (some c5Slot)
        (.error "external fetch failed")).map (fun d => d.error) = some false :=
  ⟨rfl, rfl⟩

/-- Semaphore accounting along any reachable execution: available permits
plus outstanding part-fetch tasks equal the constructed capacity. -/
theorem extReachable_permits (cap : Nat) (s : ExtFetchState)
    (h : ExtReachable cap s) : s.permits + s.part_tasks = cap := by
  induction h with
  | init => rfl
  | step _ hs ih =>
    cases hs with
    | dispatch_part_acquired hp => simp only []; omega
    | dispatch_part_no_permits hp => exact ih
    | finish_part hp => simp only []; omega
    | dispatch_header => exact ih
    | finish_header hp => exact ih

/-- C6 (amended): the number of outstanding external-storage part-fetch
tasks never exceeds the semaphore capacity chosen at construction; header
fetches are not governed by the semaphore. -/
theorem c6_amended_part_tasks_le_capacity (cap : Nat) (s : ExtFetchState)
    (h : ExtReachable cap s) : s.part_tasks ≤ cap := by
  have := extReachable_permits cap s h
  omega

theorem c6_witness :
    ExtReachable 2 ⟨1, 1, 0⟩ ∧ (ExtFetchState.mk 1 1 0).part_tasks ≤ 2 := by
  have h1 : ExtReachable 2 ⟨1, 1, 0⟩ :=
    ExtReachable.step ExtReachable.init
      (ExtStep.dispatch_part_acquired ⟨2, 0, 0⟩ (by decide))
  exact ⟨h1, c6_amended_part_tasks_le_capacity 2 ⟨1, 1, 0⟩ h1⟩

/-- C6 counterexample: a header fetch does not consume a permit, so with
capacity 1 a reachable state holds one part task and one header task:
two outstanding external GET tasks, exceeding the capacity. -/
theorem c6_counterexample :
    ExtReachable 1 ⟨0, 1, 1⟩ ∧
    ¬((ExtFetchState.mk 0 1 1).part_tasks +
        (ExtFetchState.mk 0 1 1).header_tasks ≤ 1) := by
  have h1 : ExtReachable 1 ⟨0, 1, 0⟩ :=
    ExtReachable.step ExtReachable.init
      (ExtStep.dispatch_part_acquired ⟨1, 0, 0⟩ (by decide))
  have h2 : ExtReachable 1 ⟨0, 1, 1⟩ :=
    ExtReachable.step h1 (ExtStep.dispatch_header ⟨0, 1, 0⟩)
  exact ⟨h2, by decide⟩

/-- C7: a completion message whose `sync_hash` differs from the current
one is dropped by the drain without mutating the chain or any shard
state. -/
theorem c7_mismatched_message_no_mutation (sync_hash : Hash)
    (st : Chain × ShardMap) (m : StateSyncGetFileResult)
    (h : m.sync_hash ≠ sync_hash) :
    drain_one sync_hash st m = st := by
  obtain ⟨c, sm⟩ := st
  unfold drain_one
  simp [h]

theorem c7_witness :
    c7Msg.sync_hash ≠ 10 ∧
    drain_one 10 (baseChain, c2Map) c7Msg = (baseChain, c2Map) :=
  ⟨by decide, c7_mismatched_message_no_mutation 10 (baseChain, c2Map) c7Msg
    (by decide)⟩

/-- One iteration of the parts-request loop keeps the dispatched-peer-
request count within the cap, and the dispatched list no longer than the
count. -/
theorem request_parts_body_bound (ext : Option StateSyncExternalCfg)
    (chain : Chain) (sid : ShardId) (h : Hash) (pid : Nat)
    (d : DownloadStatus) (acc : PartsLoopAcc)
    (h1 : acc.peer_reqs.length ≤ acc.peer_requests_sent)
    (h2 : acc.peer_requests_sent ≤ MAX_STATE_PART_REQUEST) :
    (request_shard_parts_body ext chain sid h pid d acc).2.peer_reqs.length ≤
      (request_shard_parts_body ext chain sid h pid d acc).2.peer_requests_sent ∧
    (request_shard_parts_body ext chain sid h pid d acc).2.peer_requests_sent ≤
      MAX_STATE_PART_REQUEST := by
  unfold request_shard_parts_body
  dsimp only
  repeat' split
  all_goals simp_all
  all_goals omega

/-- The parts-request loop keeps the bound of `request_parts_body_bound`
along the whole downloads vector. -/
theorem request_parts_go_bound (ext : Option StateSyncExternalCfg)
    (chain : Chain) (sid : ShardId) (h : Hash) :
    ∀ (l : List DownloadStatus) (pid : Nat) (acc : PartsLoopAcc),
    acc.peer_reqs.length ≤ acc.peer_requests_sent →
    acc.peer_requests_sent ≤ MAX_STATE_PART_REQUEST →
    (request_shard_parts_go ext chain sid h l pid acc).2.peer_reqs.length ≤
      (request_shard_parts_go ext chain sid h l pid acc).2.peer_requests_sent ∧
    (request_shard_parts_go ext chain sid h l pid acc).2.peer_requests_sent ≤
      MAX_STATE_PART_REQUEST := by
  intro l
  induction l with
  | nil => intro pid acc h1 h2; exact ⟨h1, h2⟩
  | cons d rest ih =>
    intro pid acc h1 h2
    unfold request_shard_parts_go
    split
    · exact ih (pid + 1) acc h1 h2
    · have hb := request_parts_body_bound ext chain sid h pid d acc h1 h2
      dsimp only
      split
      · exact hb
      · exact ih (pid + 1) _ hb.1 hb.2

/-- One `request_shard_parts` call dispatches at most
`MAX_STATE_PART_REQUEST = 16` peer part requests. -/
theorem parts_req_peer_bound (ext : Option StateSyncExternalCfg)
    (chain : Chain) (shard_id : ShardId) (sync_hash : Hash)
    (ssd : ShardSyncDownload) (permits : Nat) :
    (request_shard_parts_m ext chain shard_id sync_hash ssd permits).peer_reqs.length ≤
      MAX_STATE_PART_REQUEST := by
  have hb := request_parts_go_bound ext chain shard_id sync_hash ssd.downloads 0
    ⟨permits, 0, none, [], [], none⟩ (by simp) (by simp [MAX_STATE_PART_REQUEST])
  calc (request_shard_parts_m ext chain shard_id sync_hash ssd permits).peer_reqs.length
      ≤ _ := hb.1
    _ ≤ MAX_STATE_PART_REQUEST := hb.2

/-- A loop-body step of `request_shard_parts` never drops an already
dispatched part id. -/
theorem parts_body_reqs_mono (ext : Option StateSyncExternalCfg) (c : Chain)
    (sid : ShardId) (h : Hash) (pid : Nat) (d : DownloadStatus)
    (acc : PartsLoopAcc) (x : Nat) (hx : x ∈ acc.peer_reqs) :
    x ∈ (request_shard_parts_body ext c sid h pid d acc).2.peer_reqs := by
  unfold request_shard_parts_body
  dsimp only
  repeat' split
  all_goals simp_all

/-- The loop of `request_shard_parts` never drops an already dispatched
part id. -/
theorem parts_go_reqs_mono (ext : Option StateSyncExternalCfg) (c : Chain)
    (sid : ShardId) (h : Hash) (x : Nat) :
    ∀ (l : List DownloadStatus) (pid : Nat) (acc : PartsLoopAcc),
    x ∈ acc.peer_reqs →
    x ∈ (request_shard_parts_go ext c sid h l pid acc).2.peer_reqs := by
  intro l
  induction l with
  | nil => intro pid acc hx; exact hx
  | cons d rest ih =>
    intro pid acc hx
    unfold request_shard_parts_go
    dsimp only
    split
    · exact ih (pid + 1) acc hx
    · split
      · exact parts_body_reqs_mono ext c sid h pid d acc x hx
      · exact ih (pid + 1) _ (parts_body_reqs_mono ext c sid h pid d acc x hx)

/-- With no external storage, a loop-body step of `request_shard_parts`
either leaves the slot and the dispatched list untouched or dispatches it
and records its part id; the panic field is untouched either way (the
unwraps sit on the external path). -/
theorem parts_body_none_cases (c : Chain) (sid : ShardId) (h : Hash)
    (pid : Nat) (d : DownloadStatus) (acc : PartsLoopAcc) :
    ((request_shard_parts_body none c sid h pid d acc).1 = d ∧
      (request_shard_parts_body none c sid h pid d acc).2.peer_reqs =
        acc.peer_reqs ∧
      (request_shard_parts_body none c sid h pid d acc).2.err = acc.err) ∨
    (pid ∈ (request_shard_parts_body none c sid h pid d acc).2.peer_reqs ∧
      (request_shard_parts_body none c sid h pid d acc).2.err = acc.err) := by
  unfold request_shard_parts_body
  dsimp only
  repeat' split
  all_goals first
    | exact Or.inl ⟨rfl, rfl, rfl⟩
    | (right
       refine ⟨?_, rfl⟩
       simp
       done)
    | simp_all

/-- With no external storage and no pending panic, a slot whose part id
the `request_shard_parts` loop did not dispatch is left completely
untouched (in particular still armed when it was). -/
theorem parts_go_untouched (c : Chain) (sid : ShardId) (h : Hash) :
    ∀ (l : List DownloadStatus) (pid : Nat) (acc : PartsLoopAcc),
    acc.err = none →
    ∀ (j : Nat) (d : DownloadStatus), l.get? j = some d →
    (pid + j) ∉ (request_shard_parts_go none c sid h l pid acc).2.peer_reqs →
    (request_shard_parts_go none c sid h l pid acc).1.get? j = some d := by
  intro l
  induction l with
  | nil => intro pid acc hacc j d hget hnotin; simp at hget
  | cons d0 rest ih =>
    intro pid acc hacc j d hget hnotin
    unfold request_shard_parts_go at hnotin ⊢
    dsimp only at hnotin ⊢
    by_cases hrm : d0.run_me = false
    · rw [if_pos hrm] at hnotin ⊢
      dsimp only at hnotin ⊢
      cases j with
      | zero =>
        rw [List.get?_cons_zero] at hget ⊢
        exact hget
      | succ j' =>
        rw [List.get?_cons_succ] at hget ⊢
        have hidx : pid + 1 + j' = pid + (j' + 1) := by omega
        exact ih (pid + 1) acc hacc j' d hget (by rw [hidx]; exact hnotin)
    · rw [if_neg hrm] at hnotin ⊢
      have herr : (request_shard_parts_body none c sid h pid d0 acc).2.err =
          none := by
        rcases parts_body_none_cases c sid h pid d0 acc with
          ⟨_, _, he⟩ | ⟨_, he⟩ <;> rw [he, hacc]
      split
      · rename_i hcond
        rw [herr] at hcond
        simp at hcond
      · rename_i hcond
        rw [if_neg hcond] at hnotin
        dsimp only at hnotin ⊢
        rcases parts_body_none_cases c sid h pid d0 acc with
          ⟨hslot, hreqs, _⟩ | ⟨hmem, _⟩
        · cases j with
          | zero =>
            rw [List.get?_cons_zero] at hget ⊢
            rw [hslot]
            exact hget
          | succ j' =>
            rw [List.get?_cons_succ] at hget ⊢
            have hidx : pid + 1 + j' = pid + (j' + 1) := by omega
            exact ih (pid + 1) _ herr j' d hget (by rw [hidx]; exact hnotin)
        · cases j with
          | zero =>
            exfalso
            rw [Nat.add_zero] at hnotin
            exact hnotin
              (parts_go_reqs_mono none c sid h pid rest (pid + 1) _ hmem)
          | succ j' =>
            rw [List.get?_cons_succ] at hget ⊢
            have hidx : pid + 1 + j' = pid + (j' + 1) := by omega
            exact ih (pid + 1) _ herr j' d hget (by rw [hidx]; exact hnotin)

/-- One shard-loop iteration dispatches at most 16 peer part requests. -/
theorem advance_reqs_le (ss : StateSync) (chain : Chain) (map : ShardMap)
    (sync_hash : Hash) (now : Int) (v : Nat) (r : Bool) (sid : ShardId) :
    (advance_peer_part_reqs ss chain map sync_hash now v r sid).length ≤
      MAX_STATE_PART_REQUEST := by
  unfold advance_peer_part_reqs shard_peer_part_reqs
  dsimp only
  repeat' split
  all_goals first
    | exact parts_req_peer_bound _ _ _ _ _ _
    | simp [MAX_STATE_PART_REQUEST]

/-- A shard the loop never visits receives no peer part request. -/
theorem loop_reqs_absent (sync_hash : Hash) (peers : List PeerId) (now : Int)
    (v : Nat) (r : Bool) (target : ShardId) :
    ∀ (l : List ShardId) (ss : StateSync) (chain : Chain) (map : ShardMap),
    target ∉ l →
    loop_peer_part_reqs sync_hash peers now v r ss chain map l target = 0 := by
  intro l
  induction l with
  | nil => intro ss chain map _; rfl
  | cons sid rest ih =>
    intro ss chain map hnotin
    have hne : sid ≠ target := fun hc => hnotin (hc ▸ List.mem_cons_self sid rest)
    have hrest : target ∉ rest := fun hc => hnotin (List.mem_cons_of_mem sid hc)
    unfold loop_peer_part_reqs
    dsimp only
    rw [if_neg (fun hc => hne hc)]
    split
    · rfl
    · rename_i ss' chain' map' done heq
      rw [Nat.zero_add]
      exact ih ss' chain' map' hrest

/-- Over a duplicate-free shard list, the loop dispatches at most 16 peer
part requests per shard. -/
theorem loop_reqs_nodup_le (sync_hash : Hash) (peers : List PeerId)
    (now : Int) (v : Nat) (r : Bool) (target : ShardId) :
    ∀ (l : List ShardId), l.Nodup →
    ∀ (ss : StateSync) (chain : Chain) (map : ShardMap),
    loop_peer_part_reqs sync_hash peers now v r ss chain map l target ≤
      MAX_STATE_PART_REQUEST := by
  intro l
  induction l with
  | nil =>
    intro _ ss chain map
    simp [loop_peer_part_reqs, MAX_STATE_PART_REQUEST]
  | cons sid rest ih =>
    intro hnd ss chain map
    have hnotin : sid ∉ rest := (List.nodup_cons.mp hnd).1
    have hrest : rest.Nodup := (List.nodup_cons.mp hnd).2
    unfold loop_peer_part_reqs
    dsimp only
    by_cases hst : sid = target
    · rw [if_pos hst]
      split
      · exact advance_reqs_le ss chain map sync_hash now v r sid
      · rename_i ss' chain' map' done heq
        rw [loop_reqs_absent sync_hash peers now v r target rest ss' chain'
          map' (hst ▸ hnotin), Nat.add_zero]
        exact advance_reqs_le ss chain map sync_hash now v r sid
    · rw [if_neg hst]
      split
      · simp [MAX_STATE_PART_REQUEST]
      · rename_i ss' chain' map' done heq
        rw [Nat.zero_add]
        exact ih hrest ss' chain' map'

/-- C8 (amended): provided `tracking_shards` contains no duplicate shard
ids, every shard receives at most `MAX_STATE_PART_REQUEST = 16` state-part
requests to peers in one `run` tick; and in the peers-only configuration a
slot whose part id `request_shard_parts` did not dispatch is left
completely untouched — in particular still armed when it was — for a later
tick. (With a duplicated entry the loop visits the shard once per
occurrence, each visit with a fresh per-call counter, so the per-tick
bound fails: see the counterexample.) -/
theorem c8_amended_peer_requests_bounded (ss : StateSync) (sync_hash : Hash)
    (map : ShardMap) (chain : Chain) (peers : List PeerId)
    (tracking : List ShardId) (now : Int) (hnd : tracking.Nodup) :
    (∀ target, run_peer_part_reqs ss sync_hash map chain peers tracking now
        target ≤ MAX_STATE_PART_REQUEST) ∧
    (∀ (c : Chain) (sid : ShardId) (h : Hash) (ssd : ShardSyncDownload)
        (p j : Nat) (d : DownloadStatus),
      ssd.downloads.get? j = some d →
      j ∉ (request_shard_parts_m none c sid h ssd p).peer_reqs →
      (request_shard_parts_m none c sid h ssd p).ssd.downloads.get? j =
        some d) := by
  constructor
  · intro target
    unfold run_peer_part_reqs
    dsimp only
    repeat' split
    all_goals first
      | exact loop_reqs_nodup_le sync_hash peers now _ _ target tracking hnd
          _ _ _
      | simp [MAX_STATE_PART_REQUEST]
  · intro c sid h ssd p j d hget hnotin
    unfold request_shard_parts_m at hnotin ⊢
    dsimp only at hnotin ⊢
    have := parts_go_untouched c sid h ssd.downloads 0
      ⟨p, 0, none, [], [], none⟩ rfl j d hget (by rw [Nat.zero_add]; exact hnotin)
    exact this

/-- C8 witness: the amended bound applied at the duplicate-free tracking
list `[0, 1]` on the 32-armed-slot state. -/
theorem c8_witness :
    List.Nodup [0, 1] ∧
    run_peer_part_reqs c2wSS 10 c8Map baseChain [] [0, 1] 100 0 ≤
      MAX_STATE_PART_REQUEST :=
  ⟨by decide,
    (c8_amended_peer_requests_bounded c2wSS 10 c8Map baseChain [] [0, 1] 100
      (by decide)).1 0⟩

/-- C8 counterexample: with shard 0 listed twice in `tracking_shards`, one
`run` tick dispatches 32 state-part requests to peers for shard 0 — the
shard loop visits it once per occurrence and each visit sends a fresh
batch of `MAX_STATE_PART_REQUEST` — refuting the per-shard-per-tick bound
of 16; the final map confirms all 32 slots were dispatched in this tick
(`run_me` cleared, attempt counter bumped from 0 to 1 on every slot). -/
theorem c8_counterexample :
    run_peer_part_reqs c2wSS 10 c8Map baseChain [] [0, 0] 100 0 = 32 ∧
    MAX_STATE_PART_REQUEST = 16 ∧
    (StateSync.run c2wSS 10 c8Map baseChain [] [0, 0] 100).map 0 =
      some ⟨List.replicate 32 { c8Slot with
        run_me := false
        state_requests_count := 1 }, .StateDownloadParts⟩ := by
  refine ⟨by decide, by decide, by decide⟩

/-- The loop of `get_epoch_start_sync_hash` only returns hashes satisfying
the exit condition, provided the walk started from a stored header and the
store is hash-consistent. -/
theorem epoch_start_loop_exit (c : Chain) (wf : c.WellFormed) :
    ∀ (fuel : Nat) (e : EpochId) (hash prev r : Hash),
    (∃ hdr, c.headers hash = some hdr ∧ hdr.epoch_id = e ∧ hdr.prev_hash = prev) →
    epoch_start_loop c fuel e hash prev = .ok r →
    epochStartExit c r := by
  intro fuel
  induction fuel with
  | zero => intro e hash prev r _ hloop; exact absurd hloop (by simp [epoch_start_loop])
  | succ k ih =>
    intro e hash prev r hinv hloop
    obtain ⟨hdr, hh, hepoch, hprev⟩ := hinv
    unfold epoch_start_loop at hloop
    split at hloop
    · rename_i hpz
      cases hloop
      exact ⟨hdr, hh, Or.inl (hprev.trans hpz)⟩
    · rename_i hpz
      rw [Chain.get_block_header] at hloop
      cases hh2 : c.headers prev with
      | none => rw [hh2] at hloop; cases hloop
      | some hdr2 =>
        rw [hh2] at hloop
        simp only [] at hloop
        split at hloop
        · rename_i hne
          cases hloop
          refine ⟨hdr, hh, Or.inr ⟨hdr2, ?_, ?_⟩⟩
          · rw [hprev]; exact hh2
          · rw [hepoch]; exact fun hc => hne hc.symm
        · rename_i hne
          refine ih hdr2.epoch_id hdr2.hash hdr2.prev_hash r ⟨hdr2, ?_, rfl, rfl⟩ hloop
          rw [wf prev hdr2 hh2]; exact hh2

/-- A hash satisfying the exit condition is a fixed point of
`get_epoch_start_sync_hash` (for any positive fuel). -/
theorem epoch_start_exit_fixed (c : Chain) (wf : c.WellFormed) (r : Hash)
    (fuel : Nat) (hf : 0 < fuel) (he : epochStartExit c r) :
    get_epoch_start_sync_hash_m c r fuel = .ok r := by
  obtain ⟨hdr, hh, hcase⟩ := he
  obtain ⟨k, rfl⟩ : ∃ k, fuel = k + 1 := ⟨fuel - 1, by omega⟩
  unfold get_epoch_start_sync_hash_m Chain.get_block_header
  rw [hh]
  simp only []
  have hhash : hdr.hash = r := wf r hdr hh
  unfold epoch_start_loop
  cases hcase with
  | inl hz => rw [hz]; simp [hhash]
  | inr hex =>
    obtain ⟨hdr2, hh2, hne⟩ := hex
    by_cases hpz : hdr.prev_hash = 0
    · rw [hpz]; simp [hhash]
    · rw [if_neg hpz, Chain.get_block_header, hh2]
      simp only []
      rw [if_pos (fun hc => hne hc.symm)]
      rw [hhash]

/-- C9: `get_epoch_start_sync_hash` is idempotent: on a hash-consistent
header store, applying it to its own successful result returns that result
unchanged. -/
theorem c9_epoch_start_sync_hash_idempotent (c : Chain) (h r : Hash)
    (fuel : Nat) (wf : c.WellFormed)
    (hok : get_epoch_start_sync_hash_m c h fuel = .ok r) :
    get_epoch_start_sync_hash_m c r fuel = .ok r := by
  unfold get_epoch_start_sync_hash_m Chain.get_block_header at hok
  cases hh : c.headers h with
  | none => rw [hh] at hok; cases hok
  | some hdr0 =>
    rw [hh] at hok
    simp only [] at hok
    have hexit : epochStartExit c r := by
      refine epoch_start_loop_exit c wf fuel hdr0.epoch_id hdr0.hash
        hdr0.prev_hash r ⟨hdr0, ?_, rfl, rfl⟩ hok
      rw [wf h hdr0 hh]; exact hh
    have hf : 0 < fuel := by
      cases fuel with
      | zero => exact absurd hok (by simp [epoch_start_loop])
      | succ k => omega
    exact epoch_start_exit_fixed c wf r fuel hf hexit

theorem c9_witness :
    epochChain.WellFormed ∧
    get_epoch_start_sync_hash_m epochChain 3 5 = .ok 2 ∧
    get_epoch_start_sync_hash_m epochChain 2 5 = .ok 2 := by
  have wf : epochChain.WellFormed := by
    intro h hdr hh
    simp only [epochChain, baseChain] at hh
    by_cases h3 : h = 3
    · subst h3; simp at hh; rw [← hh]
    · by_cases h2 : h = 2
      · subst h2; simp at hh; rw [← hh]
      · by_cases hg : h = 1
        · subst hg; simp at hh; rw [← hh]
        · simp [h3, h2, hg] at hh
  refine ⟨wf, rfl, c9_epoch_start_sync_hash_idempotent epochChain 3 2 5 wf rfl⟩

/-- `set_state_header` only updates the state-header store: block headers
and the shard layouts are untouched. -/
theorem set_state_header_env (c : Chain) (sid : ShardId) (h : Hash)
    (hdr : StateHeaderData) (c' : Chain)
    (heq : Chain.set_state_header c sid h hdr = .ok c') :
    c'.headers = c.headers ∧ c'.shard_layout = c.shard_layout := by
  unfold Chain.set_state_header at heq
  split at heq
  · cases heq; exact ⟨rfl, rfl⟩
  · cases heq

/-- Draining one message never changes block headers or shard layouts. -/
theorem drain_one_env (h : Hash) (st : Chain × ShardMap)
    (m : StateSyncGetFileResult) :
    (drain_one h st m).1.headers = st.1.headers ∧
    (drain_one h st m).1.shard_layout = st.1.shard_layout := by
  obtain ⟨c, sm⟩ := st
  unfold drain_one
  dsimp only
  repeat' split
  all_goals try exact ⟨rfl, rfl⟩
  all_goals exact set_state_header_env c m.shard_id h _ _ (by assumption)

/-- Draining the whole channel never changes block headers or shard
layouts. -/
theorem drain_fold_env (h : Hash) :
    ∀ (msgs : List StateSyncGetFileResult) (st : Chain × ShardMap),
    (msgs.foldl (drain_one h) st).1.headers = st.1.headers ∧
    (msgs.foldl (drain_one h) st).1.shard_layout = st.1.shard_layout := by
  intro msgs
  induction msgs with
  | nil => intro st; exact ⟨rfl, rfl⟩
  | cons x xs ih =>
    intro st
    have h1 := drain_one_env h st x
    have h2 := ih (drain_one h st x)
    simp only [List.foldl]
    exact ⟨h2.1.trans h1.1, h2.2.trans h1.2⟩

/-- `sync_shards_status` panics as soon as the two shard layouts differ. -/
theorem sync_shards_status_layout_panic (ss : StateSync) (chain : Chain)
    (map : ShardMap) (sync_hash : Hash) (peers : List PeerId)
    (tracking : List ShardId) (now : Int) (h1 h0 : BlockHeader)
    (L1 L0 : ShardLayout)
    (hh1 : chain.headers sync_hash = some h1)
    (hh0 : chain.headers h1.prev_hash = some h0)
    (hl0 : chain.shard_layout h0.epoch_id = some L0)
    (hl1 : chain.shard_layout h1.epoch_id = some L1)
    (hll : L0 ≠ L1) :
    (sync_shards_status_m ss chain map sync_hash peers tracking now).2.2.2 =
      .error .panicShardLayoutChanged := by
  simp only [sync_shards_status_m, Chain.get_block_header, hh1, hh0, hl0, hl1]
  rw [if_pos hll]

/-- C3 (amended): when the tracking list is non-empty and the shard layout
of the epoch of `sync_hash` differs from that of the epoch of its previous
block, `run` aborts with the shard-layout panic, propagated to the caller
before any shard is advanced. -/
theorem c3_amended_run_layout_change_fatal (ss : StateSync) (chain : Chain)
    (map : ShardMap) (peers : List PeerId) (tracking : List ShardId)
    (now : Int) (sync_hash : Hash) (h1 h0 : BlockHeader) (L1 L0 : ShardLayout)
    (hne : tracking ≠ [])
    (hh1 : chain.headers sync_hash = some h1)
    (hh0 : chain.headers h1.prev_hash = some h0)
    (hl0 : chain.shard_layout h0.epoch_id = some L0)
    (hl1 : chain.shard_layout h1.epoch_id = some L1)
    (hll : L0 ≠ L1) :
    (StateSync.run ss sync_hash map chain peers tracking now).result =
      .error .panicShardLayoutChanged := by
  unfold StateSync.run
  rw [if_neg hne]
  dsimp only
  have henv := drain_fold_env sync_hash ss.channel (chain, map)
  have hpanic := sync_shards_status_layout_panic { ss with channel := [] }
    (process_downloaded_parts_m sync_hash chain map ss.channel).1
    (process_downloaded_parts_m sync_hash chain map ss.channel).2
    sync_hash peers tracking now h1 h0 L1 L0
    (by rw [process_downloaded_parts_m] at *; rw [henv.1]; exact hh1)
    (by rw [process_downloaded_parts_m] at *; rw [henv.1]; exact hh0)
    (by rw [process_downloaded_parts_m] at *; rw [henv.2]; exact hl0)
    (by rw [process_downloaded_parts_m] at *; rw [henv.2]; exact hl1)
    hll
  rw [hpanic]

theorem c3_witness :
    ([0] : List ShardId) ≠ [] ∧
    layoutChain.headers 10 = some ⟨10, 9, 5⟩ ∧
    layoutChain.headers 9 = some ⟨9, 0, 4⟩ ∧
    layoutChain.shard_layout 4 = some ⟨1, 0⟩ ∧
    layoutChain.shard_layout 5 = some ⟨1, 1⟩ ∧
    (⟨1, 0⟩ : ShardLayout) ≠ ⟨1, 1⟩ ∧
    (StateSync.run c1SS 10 c1Map layoutChain [] [0] 100).result =
      .error .panicShardLayoutChanged :=
  ⟨by decide, rfl, rfl, rfl, rfl, by decide,
    c3_amended_run_layout_change_fatal c1SS layoutChain c1Map [] [0] 100 10
      ⟨10, 9, 5⟩ ⟨9, 0, 4⟩ ⟨1, 1⟩ ⟨1, 0⟩ (by decide) rfl rfl rfl rfl (by decide)⟩

/-- C3 counterexample: with an empty tracking list, `run` returns
`Completed` without ever checking the layouts, even though the layouts of
the two epochs differ — no fatal condition is signalled. -/
theorem c3_counterexample :
    layoutChain.shard_layout 4 ≠ layoutChain.shard_layout 5 ∧
    (StateSync.run c1SS 10 c1Map layoutChain [] [] 100).result =
      .ok .Completed :=
  ⟨by decide, rfl⟩

/-- The header handler leaves the shard in the header phase or moves it to
the parts phase. -/
theorem header_status_out (t : Int) (c : Chain) (sid : ShardId) (h : Hash)
    (now : Int) (ssd : ShardSyncDownload)
    (hs : ssd.status = .StateDownloadHeader) :
    (sync_shards_download_header_status_m t c sid h now ssd).1.status =
      .StateDownloadParts ∨
    (sync_shards_download_header_status_m t c sid h now ssd).1.status =
      .StateDownloadHeader := by
  unfold sync_shards_download_header_status_m
  repeat' split
  all_goals simp_all [ShardSyncDownload.new_download_state_parts]

/-- The parts handler leaves the shard in the parts phase or moves it to
apply scheduling. -/
theorem parts_status_out (t now : Int) (ssd : ShardSyncDownload)
    (hs : ssd.status = .StateDownloadParts) :
    (sync_shards_download_parts_status_m t now ssd).1.status =
      .StateApplyScheduling ∨
    (sync_shards_download_parts_status_m t now ssd).1.status =
      .StateDownloadParts := by
  unfold sync_shards_download_parts_status_m
  dsimp only
  split
  · exact Or.inl rfl
  · exact Or.inr hs

/-- The scheduling handler never produces `StateSyncDone`. -/
theorem scheduling_status_ne_done (c : Chain) (sid : ShardId) (h : Hash)
    (now : Int) (ssd : ShardSyncDownload)
    (hs : ssd.status = .StateApplyScheduling) :
    (sync_shards_apply_scheduling_status_m c sid h now ssd).1.status ≠
      .StateSyncDone := by
  unfold sync_shards_apply_scheduling_status_m
  repeat' split
  all_goals simp_all [ShardSyncDownload.new_download_state_header]

/-- The apply handler never produces `StateSyncDone`. -/
theorem apply_status_ne_done (ss : StateSync) (c : Chain) (sid : ShardId)
    (h : Hash) (ssd : ShardSyncDownload)
    (hs : ssd.status = .StateApplyInProgress) :
    (sync_shards_apply_status_m ss c sid h ssd).2.2.1.status ≠
      .StateSyncDone := by
  unfold sync_shards_apply_status_m
  repeat' split
  all_goals try simp_all
  all_goals (split <;> simp_all)

/-- The impl part of the finalizing handler reports `shard_sync_done`
exactly when it set the status to `StateSyncDone`. -/
theorem finalizing_impl_done_iff (ss : StateSync) (c : Chain) (uid : ShardUId)
    (h : Hash) (r : Bool) (ssd : ShardSyncDownload)
    (hs : ssd.status = .StateApplyFinalizing) :
    ((sync_shards_apply_finalizing_status_impl_m ss c uid h r ssd).2.2.2.1 =
        true ↔
      (sync_shards_apply_finalizing_status_impl_m ss c uid h r ssd).2.2.1.status =
        .StateSyncDone) := by
  unfold sync_shards_apply_finalizing_status_impl_m
  repeat' split
  all_goals simp_all

/-- The finalizing handler reports `shard_sync_done` exactly when it set
the status to `StateSyncDone`. -/
theorem finalizing_done_iff (ss : StateSync) (c : Chain) (uid : ShardUId)
    (h : Hash) (now : Int) (r : Bool) (ssd : ShardSyncDownload)
    (hs : ssd.status = .StateApplyFinalizing) :
    ((sync_shards_apply_finalizing_status_m ss c uid h now r ssd).2.2.2.1 =
        true ↔
      (sync_shards_apply_finalizing_status_m ss c uid h now r ssd).2.2.1.status =
        .StateSyncDone) := by
  unfold sync_shards_apply_finalizing_status_m
  rcases hI : sync_shards_apply_finalizing_status_impl_m ss c uid h r ssd with
    ⟨iss, ichain, issd, idone, ierr⟩
  cases ierr with
  | none =>
    dsimp only
    have himp := finalizing_impl_done_iff ss c uid h r ssd hs
    rw [hI] at himp
    exact himp
  | some e =>
    dsimp only
    repeat' split
    all_goals simp [ShardSyncDownload.new_download_state_header]

/-- `request_shard` never changes the shard's status. -/
theorem request_shard_status (ext : Option StateSyncExternalCfg) (c : Chain)
    (sid : ShardId) (h : Hash) (peers : List PeerId) (ssd : ShardSyncDownload)
    (p : Nat) :
    (request_shard_m ext c sid h peers ssd p).ssd.status = ssd.status := by
  unfold request_shard_m request_shard_header_m request_shard_parts_m
  repeat' split
  all_goals simp_all [ShardSyncDownload.set_header_download]

/-- The status dispatch reports `shard_sync_done` exactly when the shard's
record left it with status `StateSyncDone`. -/
theorem handle_done_iff (ss : StateSync) (c : Chain) (h : Hash) (now : Int)
    (r : Bool) (uid : ShardUId) (sid : ShardId) (ssd : ShardSyncDownload)
    (run0 : Bool) :
    ((handle_shard_status ss c h now r uid sid ssd run0).shard_sync_done =
        true ↔
      (handle_shard_status ss c h now r uid sid ssd run0).ssd.status =
        .StateSyncDone) := by
  unfold handle_shard_status
  cases hst : ssd.status
  case StateDownloadHeader =>
    dsimp only
    rcases header_status_out ss.timeout c sid h now ssd hst with h1 | h1 <;>
      simp [h1]
  case StateDownloadParts =>
    dsimp only
    rcases parts_status_out ss.timeout now ssd hst with h1 | h1 <;> simp [h1]
  case StateApplyScheduling =>
    dsimp only
    simp [scheduling_status_ne_done c sid h now ssd hst]
  case StateApplyInProgress =>
    dsimp only
    simp [apply_status_ne_done ss c sid h ssd hst]
  case StateApplyFinalizing =>
    exact finalizing_done_iff ss c uid h now r ssd hst
  case ReshardingScheduling => simp [hst]
  case ReshardingApplying => simp [hst]
  case StateSyncDone => simp [hst]

/-- `advance_tail` only writes the entry of its own shard. -/
theorem advance_tail_frame (hout : HandlerOut) (map : ShardMap) (h : Hash)
    (peers : List PeerId) (sid : ShardId) (k : ShardId) (hk : k ≠ sid) :
    (advance_tail hout map h peers sid).2.2.1 k = map k := by
  unfold advance_tail
  repeat' split
  all_goals simp [ShardMap.insert, hk]

/-- When `advance_tail` succeeds, the map holds the shard's final record
and `shard_sync_done` says exactly that this record is `StateSyncDone`. -/
theorem advance_tail_done (hout : HandlerOut) (map : ShardMap) (h : Hash)
    (peers : List PeerId) (sid : ShardId)
    (hiff : hout.shard_sync_done = true ↔ hout.ssd.status = .StateSyncDone)
    (herr : (advance_tail hout map h peers sid).2.2.2.2 = none) :
    ∃ ssd', (advance_tail hout map h peers sid).2.2.1 sid = some ssd' ∧
      ((advance_tail hout map h peers sid).2.2.2.1 = true ↔
        ssd'.status = .StateSyncDone) := by
  unfold advance_tail at herr ⊢
  cases hE : hout.err with
  | some e => rw [hE] at herr; simp at herr
  | none =>
    rw [hE] at herr
    dsimp only at herr ⊢
    by_cases hrun : hout.run_download = true
    · rw [if_pos hrun] at herr ⊢
      refine ⟨_, shardMap_insert_self map sid _, ?_⟩
      rw [request_shard_status]
      exact hiff
    · rw [if_neg hrun] at herr ⊢
      exact ⟨hout.ssd, shardMap_insert_self map sid _, hiff⟩

/-- `advance_shard` only writes the entry of its own shard. -/
theorem advance_shard_frame (ss : StateSync) (c : Chain) (map : ShardMap)
    (h : Hash) (peers : List PeerId) (now : Int) (v : Nat) (r : Bool)
    (sid k : ShardId) (hk : k ≠ sid) :
    (advance_shard ss c map h peers now v r sid).2.2.1 k = map k := by
  unfold advance_shard
  exact advance_tail_frame _ map h peers sid k hk

/-- When `advance_shard` succeeds, its map holds the shard's final record
and the done flag says exactly that the record is `StateSyncDone`. -/
theorem advance_shard_done (ss : StateSync) (c : Chain) (map : ShardMap)
    (h : Hash) (peers : List PeerId) (now : Int) (v : Nat) (r : Bool)
    (sid : ShardId)
    (herr : (advance_shard ss c map h peers now v r sid).2.2.2.2 = none) :
    ∃ ssd', (advance_shard ss c map h peers now v r sid).2.2.1 sid = some ssd' ∧
      ((advance_shard ss c map h peers now v r sid).2.2.2.1 = true ↔
        ssd'.status = .StateSyncDone) := by
  unfold advance_shard at herr ⊢
  exact advance_tail_done _ map h peers sid
    (handle_done_iff ss c h now r ⟨v, sid⟩ sid _ _) herr

/-- The shard loop only writes entries of the shards it visits. -/
theorem loop_frame (h : Hash) (peers : List PeerId) (now : Int) (v : Nat)
    (r : Bool) :
    ∀ (l : List ShardId) (ss : StateSync) (c : Chain) (map : ShardMap)
      (acc : Bool) (k : ShardId), k ∉ l →
    (sync_shards_loop h peers now v r ss c map l acc).2.2.1 k = map k := by
  intro l
  induction l with
  | nil => intro ss c map acc k hk; rfl
  | cons sid rest ih =>
    intro ss c map acc k hk
    have hks : k ≠ sid := fun hc => hk (hc ▸ List.mem_cons_self sid rest)
    have hkr : k ∉ rest := fun hc => hk (List.mem_cons_of_mem sid hc)
    unfold sync_shards_loop
    rcases hAdv : advance_shard ss c map h peers now v r sid with
      ⟨ass, achain, amap, adone, aerr⟩
    have hframe : amap k = map k := by
      have hfr := advance_shard_frame ss c map h peers now v r sid k hks
      rw [hAdv] at hfr; exact hfr
    cases aerr with
    | some e => exact hframe
    | none =>
      dsimp only
      rw [ih ass achain amap (acc && adone) k hkr]
      exact hframe

/-- The shard loop ends with `all_done = true` exactly when it started
with `true` and every visited shard's final record is `StateSyncDone`
(assuming no shard is visited twice). -/
theorem loop_done (h : Hash) (peers : List PeerId) (now : Int) (v : Nat)
    (r : Bool) :
    ∀ (l : List ShardId) (ss : StateSync) (c : Chain) (map : ShardMap)
      (acc : Bool) (ss' : StateSync) (c' : Chain) (map' : ShardMap)
      (all : Bool), l.Nodup →
    sync_shards_loop h peers now v r ss c map l acc = (ss', c', map', .ok all) →
    (all = true ↔ (acc = true ∧ ∀ s ∈ l, ∃ ssd, map' s = some ssd ∧
      ssd.status = .StateSyncDone)) := by
  intro l
  induction l with
  | nil =>
    intro ss c map acc ss' c' map' all hnd heq
    unfold sync_shards_loop at heq
    have hacc : acc = all ∧ map = map' := by
      simp [Prod.ext_iff] at heq
      exact ⟨heq.2.2.2, heq.2.2.1⟩
    obtain ⟨rfl, rfl⟩ := hacc
    simp
  | cons sid rest ih =>
    intro ss c map acc ss' c' map' all hnd heq
    unfold sync_shards_loop at heq
    rcases hAdv : advance_shard ss c map h peers now v r sid with
      ⟨ass, achain, amap, adone, aerr⟩
    rw [hAdv] at heq
    cases aerr with
    | some e => simp [Prod.ext_iff] at heq
    | none =>
      dsimp only at heq
      have hdone := advance_shard_done ss c map h peers now v r sid
        (by rw [hAdv])
      rw [hAdv] at hdone
      obtain ⟨ssd_s, hmap_s, hiff⟩ := hdone
      dsimp only at hmap_s hiff
      have hrest := ih ass achain amap (acc && adone) ss' c' map' all
        (List.nodup_cons.mp hnd).2 heq
      have hframe : map' sid = amap sid := by
        have hnm : sid ∉ rest := (List.nodup_cons.mp hnd).1
        have hfr := loop_frame h peers now v r rest ass achain amap
          (acc && adone) sid hnm
        rw [heq] at hfr
        exact hfr
      constructor
      · intro hall
        obtain ⟨hacc, hrest'⟩ := hrest.mp hall
        rw [Bool.and_eq_true] at hacc
        refine ⟨hacc.1, ?_⟩
        intro s hs
        rcases List.mem_cons.mp hs with rfl | hs'
        · exact ⟨ssd_s, by rw [hframe]; exact hmap_s, hiff.mp hacc.2⟩
        · exact hrest' s hs'
      · rintro ⟨hacc, hall⟩
        obtain ⟨ssd0, hm0, hst0⟩ := hall sid (List.mem_cons_self sid rest)
        rw [hframe, hmap_s] at hm0
        have hssd : ssd_s = ssd0 := by injection hm0
        have hadone : adone = true := hiff.mpr (hssd ▸ hst0)
        exact hrest.mpr ⟨by simp [hacc, hadone],
          fun s hs => hall s (List.mem_cons_of_mem sid hs)⟩

/-- `sync_shards_status` returns `all_done = true` exactly when every
tracked shard's final record is `StateSyncDone`. -/
theorem status_done (ss : StateSync) (c : Chain) (map : ShardMap) (h : Hash)
    (peers : List PeerId) (tracking : List ShardId) (now : Int)
    (ss' : StateSync) (c' : Chain) (map' : ShardMap) (all : Bool)
    (hnd : tracking.Nodup)
    (heq : sync_shards_status_m ss c map h peers tracking now =
      (ss', c', map', .ok all)) :
    (all = true ↔ ∀ s ∈ tracking, ∃ ssd, map' s = some ssd ∧
      ssd.status = .StateSyncDone) := by
  unfold sync_shards_status_m at heq
  repeat' split at heq
  all_goals try (exfalso; simp [Prod.ext_iff] at heq; done)
  have hl := loop_done h peers now _ _ tracking ss c map true ss' c' map' all
    hnd heq
  simpa using hl

/-- C1 (amended): when `tracking_shards` has no duplicates, `run` returns
`Completed` exactly when the list is empty or every tracked shard's record
ends the tick in `StateSyncDone` (given no fatal error occurred). -/
theorem c1_amended_run_completed_iff (ss : StateSync) (chain : Chain)
    (map : ShardMap) (peers : List PeerId) (tracking : List ShardId)
    (now : Int) (sync_hash : Hash) (res : StateSyncResult)
    (hnd : tracking.Nodup)
    (hok : (StateSync.run ss sync_hash map chain peers tracking now).result =
      .ok res) :
    (res = .Completed ↔ (tracking = [] ∨ ∀ s ∈ tracking,
      ∃ ssd, (StateSync.run ss sync_hash map chain peers tracking now).map s =
        some ssd ∧ ssd.status = .StateSyncDone)) := by
  unfold StateSync.run at hok ⊢
  by_cases hT : tracking = []
  · rw [if_pos hT] at hok ⊢
    dsimp only at hok
    have : res = .Completed := by injection hok with hh; exact hh.symm
    subst this
    simp [hT]
  · rw [if_neg hT] at hok ⊢
    dsimp only at hok ⊢
    rcases hR : sync_shards_status_m { ss with channel := [] }
        (process_downloaded_parts_m sync_hash chain map ss.channel).1
        (process_downloaded_parts_m sync_hash chain map ss.channel).2
        sync_hash peers tracking now with ⟨rss, rchain, rmap, rres⟩
    rw [hR] at hok
    cases rres with
    | error e => exact absurd hok (by simp)
    | ok all =>
      dsimp only at hok ⊢
      have hres : res = if all then .Completed else .InProgress := by
        injection hok with hh; exact hh.symm
      have hiff := status_done { ss with channel := [] }
        (process_downloaded_parts_m sync_hash chain map ss.channel).1
        (process_downloaded_parts_m sync_hash chain map ss.channel).2
        sync_hash peers tracking now rss rchain rmap all hnd hR
      subst hres
      by_cases hall : all = true
      · rw [hall]
        exact iff_of_true rfl (Or.inr (hiff.mp hall))
      · rw [Bool.not_eq_true] at hall
        rw [hall]
        refine iff_of_false (by simp) ?_
        rintro (hc | hc)
        · exact hT hc
        · rw [← hiff] at hc
          rw [hc] at hall
          cases hall

theorem c1_witness :
    ([0] : List ShardId).Nodup ∧
    (StateSync.run c2wSS 10 c1wMap baseChain [] [0] 100).result =
      .ok .Completed ∧
    ((.Completed : StateSyncResult) = .Completed ↔
      (([0] : List ShardId) = [] ∨ ∀ s ∈ ([0] : List ShardId), ∃ ssd,
        (StateSync.run c2wSS 10 c1wMap baseChain [] [0] 100).map s =
          some ssd ∧ ssd.status = .StateSyncDone)) :=
  ⟨by simp, rfl,
    c1_amended_run_completed_iff c2wSS baseChain c1wMap [] [0] 100 10
      .Completed (by simp) rfl⟩

/-- C1 counterexample: with the duplicated tracking list `[0, 0]`, shard 0
moves `ApplyInProgress → ApplyFinalizing` in the first visit (not done)
and `ApplyFinalizing → StateSyncDone` in the second (done), so `all_done`
is false and `run` returns `InProgress` even though every tracked shard
reached `StateSyncDone` this tick. -/
theorem c1_counterexample :
    (StateSync.run c1SS 10 c1Map baseChain [] [0, 0] 100).result =
      .ok .InProgress ∧
    (∀ s ∈ ([0, 0] : List ShardId), ∃ ssd,
      (StateSync.run c1SS 10 c1Map baseChain [] [0, 0] 100).map s =
        some ssd ∧ ssd.status = .StateSyncDone) := by
  refine ⟨rfl, ?_⟩
  intro s hs
  have hs0 : s = 0 := by
    rcases List.mem_cons.mp hs with h | h
    · exact h
    · simpa using h
  subst hs0
  exact ⟨⟨[], .StateSyncDone⟩, rfl, rfl⟩

theorem head?_get0 {α : Type} (l : List α) : l.head? = l.get? 0 := by
  cases l <;> rfl

theorem mapInv_insert (m : ShardMap) (k : ShardId) (v : ShardSyncDownload)
    (hm : mapInv m) (hv : ssdInv v) : mapInv (ShardMap.insert m k v) := by
  intro k' s hs
  by_cases hk : k' = k
  · subst hk
    rw [shardMap_insert_self] at hs
    cases hs
    exact hv
  · rw [shardMap_insert_ne m k k' v hk] at hs
    exact hm k' s hs

theorem slotInv_new (now : Int) : slotInv (DownloadStatus.new now) := by
  intro h
  simp [DownloadStatus.new] at h

theorem invList_set (l : List DownloadStatus) (i : Nat) (x : DownloadStatus)
    (hl : ∀ j d, l.get? j = some d → slotInv d) (hx : slotInv x) :
    ∀ j d, (l.set i x).get? j = some d → slotInv d := by
  intro j d hj
  by_cases hij : i = j
  · subst hij
    by_cases hlen : i < l.length
    · rw [List.get?_set_eq_of_lt x hlen] at hj
      cases hj
      exact hx
    · have hnone : (l.set i x).get? i = none := by
        rw [List.get?_eq_none]
        simpa using Nat.le_of_not_lt hlen
      rw [hnone] at hj
      cases hj
  · rw [List.get?_set_ne x l hij] at hj
    exact hl j d hj

theorem ssdInv_nil (st : ShardSyncStatus) : ssdInv ⟨[], st⟩ := by
  intro i d hd
  simp at hd

theorem ssdInv_new_header (now : Int) :
    ssdInv (ShardSyncDownload.new_download_state_header now) := by
  intro i d hd
  cases i with
  | zero =>
    simp [ShardSyncDownload.new_download_state_header] at hd
    rw [← hd]
    exact slotInv_new now
  | succ n => simp [ShardSyncDownload.new_download_state_header] at hd

theorem ssdInv_new_parts (now : Int) (n : Nat) :
    ssdInv (ShardSyncDownload.new_download_state_parts now n) := by
  intro i d hd
  simp only [ShardSyncDownload.new_download_state_parts] at hd
  have hmem := List.get?_mem hd
  have hde := List.eq_of_mem_replicate hmem
  subst hde
  exact slotInv_new now

theorem slotInv_part_check (t now : Int) (d : DownloadStatus)
    (h : slotInv d) : slotInv (part_check t now d) := by
  unfold part_check
  split
  · exact h
  · rename_i hdone
    dsimp only
    split
    · split
      · intro hc
        exact absurd (by simpa using hc) hdone
      · exact h
    · exact h

theorem invList_map_part_check (t now : Int) (l : List DownloadStatus)
    (hl : ∀ j d, l.get? j = some d → slotInv d) :
    ∀ j d, (l.map (part_check t now)).get? j = some d → slotInv d := by
  intro j d hj
  rw [List.get?_map] at hj
  cases hx : l.get? j with
  | none => rw [hx] at hj; cases hj
  | some x =>
    rw [hx] at hj
    simp at hj
    rw [← hj]
    exact slotInv_part_check t now x (hl j x hx)

theorem header_status_inv (t : Int) (c : Chain) (sid : ShardId) (h : Hash)
    (now : Int) (ssd : ShardSyncDownload) (hs : ssdInv ssd) :
    ssdInv (sync_shards_download_header_status_m t c sid h now ssd).1 := by
  unfold sync_shards_download_header_status_m
  cases hh : ssd.downloads.head? with
  | none => exact hs
  | some download =>
    dsimp only
    by_cases hd : download.done = true
    · rw [if_pos hd]
      cases hsh : c.get_state_header sid h with
      | error e => exact hs
      | ok sh => exact ssdInv_new_parts now sh.num_state_parts
    · rw [if_neg hd]
      dsimp only
      intro i d hi
      refine invList_set ssd.downloads 0 _ (fun j x hx => hs j x hx) ?_ i d hi
      have hd0 : ssd.downloads.get? 0 = some download := by
        rw [← head?_get0]; exact hh
      split
      · intro hc
        exact absurd (by simpa using hc) hd
      · exact hs 0 download hd0

theorem parts_status_inv (t now : Int) (ssd : ShardSyncDownload)
    (hs : ssdInv ssd) :
    ssdInv (sync_shards_download_parts_status_m t now ssd).1 := by
  unfold sync_shards_download_parts_status_m
  dsimp only
  split
  · exact ssdInv_nil _
  · intro i d hi
    exact invList_map_part_check t now ssd.downloads
      (fun j x hx => hs j x hx) i d hi

theorem scheduling_status_inv (c : Chain) (sid : ShardId) (h : Hash)
    (now : Int) (ssd : ShardSyncDownload) (hs : ssdInv ssd) :
    ssdInv (sync_shards_apply_scheduling_status_m c sid h now ssd).1 := by
  unfold sync_shards_apply_scheduling_status_m
  repeat' split
  all_goals first
    | exact hs
    | exact ssdInv_nil _
    | exact ssdInv_new_header now

theorem apply_status_inv (ss : StateSync) (c : Chain) (sid : ShardId)
    (h : Hash) (ssd : ShardSyncDownload) (hs : ssdInv ssd) :
    ssdInv (sync_shards_apply_status_m ss c sid h ssd).2.2.1 := by
  unfold sync_shards_apply_status_m
  repeat' split
  all_goals try first | exact hs | exact ssdInv_nil _
  all_goals (dsimp only; split)
  all_goals first | exact hs | exact ssdInv_nil _

theorem finalizing_impl_inv (ss : StateSync) (c : Chain) (uid : ShardUId)
    (h : Hash) (r : Bool) (ssd : ShardSyncDownload) (hs : ssdInv ssd) :
    ssdInv (sync_shards_apply_finalizing_status_impl_m ss c uid h r ssd).2.2.1 := by
  unfold sync_shards_apply_finalizing_status_impl_m
  repeat' split
  all_goals first | exact hs | exact ssdInv_nil _

theorem finalizing_status_inv (ss : StateSync) (c : Chain) (uid : ShardUId)
    (h : Hash) (now : Int) (r : Bool) (ssd : ShardSyncDownload)
    (hs : ssdInv ssd) :
    ssdInv (sync_shards_apply_finalizing_status_m ss c uid h now r ssd).2.2.1 := by
  unfold sync_shards_apply_finalizing_status_m
  rcases hI : sync_shards_apply_finalizing_status_impl_m ss c uid h r ssd with
    ⟨iss, ichain, issd, idone, ierr⟩
  have himp := finalizing_impl_inv ss c uid h r ssd hs
  rw [hI] at himp
  dsimp only at himp
  cases ierr with
  | none => exact himp
  | some e =>
    dsimp only
    repeat' split
    all_goals exact ssdInv_new_header now

theorem req_ext_part_inv (d : DownloadStatus) (p : Nat) (hs : slotInv d) :
    slotInv (request_part_from_external_storage_m d p).download := by
  unfold request_part_from_external_storage_m
  repeat' split
  all_goals intro hc
  all_goals simp_all [slotInv]

theorem req_peer_part_inv (d : DownloadStatus) (hs : slotInv d) :
    slotInv (request_part_from_peers_m d) := by
  unfold request_part_from_peers_m
  intro hc
  simp_all [slotInv]

theorem req_header_ext_inv (d : DownloadStatus) (hs : slotInv d) :
    slotInv (request_header_from_external_storage_m d).1 := by
  unfold request_header_from_external_storage_m
  repeat' split
  all_goals intro hc
  all_goals simp_all [slotInv]

theorem parts_body_inv (ext : Option StateSyncExternalCfg) (c : Chain)
    (sid : ShardId) (h : Hash) (pid : Nat) (d : DownloadStatus)
    (acc : PartsLoopAcc) (hs : slotInv d) :
    slotInv (request_shard_parts_body ext c sid h pid d acc).1 := by
  unfold request_shard_parts_body
  dsimp only
  repeat' split
  all_goals first
    | exact hs
    | exact req_ext_part_inv d acc.permits hs
    | exact req_peer_part_inv d hs

theorem parts_go_inv (ext : Option StateSyncExternalCfg) (c : Chain)
    (sid : ShardId) (h : Hash) :
    ∀ (l : List DownloadStatus) (pid : Nat) (acc : PartsLoopAcc),
    (∀ j d, l.get? j = some d → slotInv d) →
    ∀ j d, (request_shard_parts_go ext c sid h l pid acc).1.get? j = some d →
      slotInv d := by
  intro l
  induction l with
  | nil => intro pid acc hl j d hj; exact hl j d hj
  | cons d0 rest ih =>
    intro pid acc hl j d hj
    have h0 : slotInv d0 := hl 0 d0 rfl
    have htail : ∀ j d, rest.get? j = some d → slotInv d := fun j d hj =>
      hl (j + 1) d (by simpa using hj)
    unfold request_shard_parts_go at hj
    split at hj
    · dsimp only at hj
      cases j with
      | zero =>
        rw [List.get?_cons_zero] at hj
        cases hj
        exact h0
      | succ n =>
        rw [List.get?_cons_succ] at hj
        exact ih (pid + 1) acc htail n d hj
    · dsimp only at hj
      split at hj
      · cases j with
        | zero =>
          rw [List.get?_cons_zero] at hj
          cases hj
          exact parts_body_inv ext c sid h pid d0 acc h0
        | succ n =>
          rw [List.get?_cons_succ] at hj
          exact htail n d hj
      · cases j with
        | zero =>
          rw [List.get?_cons_zero] at hj
          cases hj
          exact parts_body_inv ext c sid h pid d0 acc h0
        | succ n =>
          rw [List.get?_cons_succ] at hj
          exact ih (pid + 1) _ htail n d hj

theorem parts_req_inv (ext : Option StateSyncExternalCfg) (c : Chain)
    (sid : ShardId) (h : Hash) (ssd : ShardSyncDownload) (p : Nat)
    (hs : ssdInv ssd) :
    ssdInv (request_shard_parts_m ext c sid h ssd p).ssd := by
  unfold request_shard_parts_m
  intro j d hj
  exact parts_go_inv ext c sid h ssd.downloads 0 _ (fun j x hx => hs j x hx)
    j d hj

theorem header_req_inv (ext : Option StateSyncExternalCfg) (c : Chain)
    (sid : ShardId) (h : Hash) (pts : List PeerId) (ssd : ShardSyncDownload)
    (hs : ssdInv ssd) :
    ssdInv (request_shard_header_m ext c sid h pts ssd).ssd := by
  unfold request_shard_header_m
  cases hg : ssd.get_header_download with
  | none => exact hs
  | some d =>
    have hd0 : ssd.downloads.get? 0 = some d := by
      unfold ShardSyncDownload.get_header_download at hg
      split at hg
      · rw [← head?_get0]; exact hg
      · cases hg
    have hsd : slotInv d := hs 0 d hd0
    dsimp only
    repeat' split
    all_goals try exact hs
    · intro j x hx
      exact invList_set ssd.downloads 0 _ (fun j x hx => hs j x hx)
        (req_header_ext_inv d hsd) j x hx
    · intro j x hx
      refine invList_set ssd.downloads 0 _ (fun j x hx => hs j x hx) ?_ j x hx
      intro hc
      have hdc : d.done = true := by simpa using hc
      exact ⟨rfl, by simpa using (hsd hdc).2⟩

theorem request_shard_inv (ext : Option StateSyncExternalCfg) (c : Chain)
    (sid : ShardId) (h : Hash) (peers : List PeerId) (ssd : ShardSyncDownload)
    (p : Nat) (hs : ssdInv ssd) :
    ssdInv (request_shard_m ext c sid h peers ssd p).ssd := by
  unfold request_shard_m
  repeat' split
  all_goals first
    | exact hs
    | exact header_req_inv _ c sid h _ ssd hs
    | exact parts_req_inv _ c sid h ssd p hs

theorem handle_inv (ss : StateSync) (c : Chain) (h : Hash) (now : Int)
    (r : Bool) (uid : ShardUId) (sid : ShardId) (ssd : ShardSyncDownload)
    (run0 : Bool) (hs : ssdInv ssd) :
    ssdInv (handle_shard_status ss c h now r uid sid ssd run0).ssd := by
  unfold handle_shard_status
  cases ssd.status
  all_goals dsimp only
  case StateDownloadHeader =>
    exact header_status_inv ss.timeout c sid h now ssd hs
  case StateDownloadParts => exact parts_status_inv ss.timeout now ssd hs
  case StateApplyScheduling => exact scheduling_status_inv c sid h now ssd hs
  case StateApplyInProgress => exact apply_status_inv ss c sid h ssd hs
  case StateApplyFinalizing =>
    exact finalizing_status_inv ss c uid h now r ssd hs
  case ReshardingScheduling => exact hs
  case ReshardingApplying => exact hs
  case StateSyncDone => exact hs

theorem advance_tail_inv (hout : HandlerOut) (map : ShardMap) (h : Hash)
    (peers : List PeerId) (sid : ShardId) (hmap : mapInv map)
    (hssd : ssdInv hout.ssd) :
    mapInv (advance_tail hout map h peers sid).2.2.1 := by
  unfold advance_tail
  cases hout.err with
  | some e => exact mapInv_insert map sid hout.ssd hmap hssd
  | none =>
    dsimp only
    split
    · exact mapInv_insert map sid _ hmap
        (request_shard_inv hout.ss.external hout.chain sid h peers hout.ssd
          (StateSync.externalPermits hout.ss) hssd)
    · exact mapInv_insert map sid hout.ssd hmap hssd

theorem advance_shard_inv (ss : StateSync) (c : Chain) (map : ShardMap)
    (h : Hash) (peers : List PeerId) (now : Int) (v : Nat) (r : Bool)
    (sid : ShardId) (hmap : mapInv map) :
    mapInv (advance_shard ss c map h peers now v r sid).2.2.1 := by
  unfold advance_shard
  have h0 : ssdInv ((map sid).getD
      (ShardSyncDownload.new_download_state_header now)) := by
    cases hm : map sid with
    | none => exact ssdInv_new_header now
    | some s => exact hmap sid s hm
  exact advance_tail_inv _ map h peers sid hmap
    (handle_inv ss c h now r ⟨v, sid⟩ sid _ _ h0)

theorem loop_inv (h : Hash) (peers : List PeerId) (now : Int) (v : Nat)
    (r : Bool) :
    ∀ (l : List ShardId) (ss : StateSync) (c : Chain) (map : ShardMap)
      (acc : Bool), mapInv map →
    mapInv (sync_shards_loop h peers now v r ss c map l acc).2.2.1 := by
  intro l
  induction l with
  | nil => intro ss c map acc hmap; exact hmap
  | cons sid rest ih =>
    intro ss c map acc hmap
    unfold sync_shards_loop
    rcases hAdv : advance_shard ss c map h peers now v r sid with
      ⟨ass, achain, amap, adone, aerr⟩
    have hai := advance_shard_inv ss c map h peers now v r sid hmap
    rw [hAdv] at hai
    dsimp only at hai
    cases aerr with
    | some e => exact hai
    | none => exact ih ass achain amap (acc && adone) hai

theorem status_inv (ss : StateSync) (c : Chain) (map : ShardMap) (h : Hash)
    (peers : List PeerId) (tracking : List ShardId) (now : Int)
    (hmap : mapInv map) :
    mapInv (sync_shards_status_m ss c map h peers tracking now).2.2.1 := by
  unfold sync_shards_status_m
  repeat' split
  all_goals first
    | exact hmap
    | exact loop_inv h peers now _ _ tracking ss c map true hmap

theorem sameRE_refl (a : ShardSyncDownload) : sameRE a a := ⟨rfl, fun _ => rfl⟩

theorem sameRE_set (ssd : ShardSyncDownload) (i : Nat) (d x : DownloadStatus)
    (hget : ssd.downloads.get? i = some d) (hrm : x.run_me = d.run_me)
    (her : x.error = d.error) :
    sameRE ssd { ssd with downloads := ssd.downloads.set i x } := by
  refine ⟨rfl, ?_⟩
  intro j
  by_cases hij : i = j
  · subst hij
    obtain ⟨hlen, _⟩ := List.get?_eq_some.mp hget
    rw [hget]
    dsimp only
    rw [List.get?_set_eq_of_lt x hlen]
    simp [hrm, her]
  · dsimp only
    rw [List.get?_set_ne x _ hij]

theorem mapRE_refl (m : ShardMap) : mapRE m m := by
  intro k
  cases hk : m k with
  | none => exact Or.inl ⟨rfl, rfl⟩
  | some a => exact Or.inr ⟨a, a, rfl, rfl, sameRE_refl a⟩

theorem mapRE_insert_same (m : ShardMap) (k : ShardId)
    (a v : ShardSyncDownload) (hk : m k = some a) (hre : sameRE a v) :
    mapRE m (ShardMap.insert m k v) := by
  intro k'
  by_cases hkk : k' = k
  · subst hkk
    exact Or.inr ⟨a, v, hk, shardMap_insert_self m k' v, hre⟩
  · rw [shardMap_insert_ne m k k' v hkk]
    cases hk' : m k' with
    | none => exact Or.inl ⟨rfl, rfl⟩
    | some b => exact Or.inr ⟨b, b, rfl, rfl, sameRE_refl b⟩

theorem get_header_download_re (a b : ShardSyncDownload) (hre : sameRE a b) :
    (a.get_header_download).map (fun d => (d.run_me, d.error)) =
    (b.get_header_download).map (fun d => (d.run_me, d.error)) := by
  unfold ShardSyncDownload.get_header_download
  rw [hre.1]
  split
  · rw [head?_get0, head?_get0]
    exact hre.2 0
  · rfl

theorem msgOkSafe_re (m m' : ShardMap) (msg : StateSyncGetFileResult)
    (hre : mapRE m m') (hs : msgOkSafe m msg) : msgOkSafe m' msg := by
  intro ssd' h'
  rcases hre msg.shard_id with ⟨hn, hn'⟩ | ⟨a, b, ha, hb, hab⟩
  · rw [hn'] at h'; cases h'
  · rw [hb] at h'
    have hbb : b = ssd' := by injection h'
    subst hbb
    have hsa := hs a ha
    cases hres : msg.result with
    | error e => exact trivial
    | ok fd =>
      cases fd with
      | stateHeader len hd =>
        simp only [hres] at hsa ⊢
        intro d hd'
        have hre2 := get_header_download_re a b hab
        rw [hd'] at hre2
        cases hga : a.get_header_download with
        | none => rw [hga] at hre2; simp at hre2
        | some da =>
          rw [hga] at hre2
          simp at hre2
          have hda := hsa da hga
          exact ⟨hre2.1 ▸ hda.1, hre2.2 ▸ hda.2⟩
      | statePart len =>
        simp only [hres] at hsa ⊢
        intro pid d hpid hd'
        have hre2 := hab.2 pid.idx
        rw [hd'] at hre2
        cases hga : a.downloads.get? pid.idx with
        | none => rw [hga] at hre2; simp at hre2
        | some da =>
          rw [hga] at hre2
          simp at hre2
          have hda := hsa pid da hpid hga
          exact ⟨hre2.1 ▸ hda.1, hre2.2 ▸ hda.2⟩

theorem drain_one_inv (h : Hash) (st : Chain × ShardMap)
    (m : StateSyncGetFileResult) (hinv : mapInv st.2)
    (hsafe : msgOkSafe st.2 m) : mapInv (drain_one h st m).2 := by
  obtain ⟨c, sm⟩ := st
  unfold drain_one
  dsimp only
  by_cases hh : m.sync_hash ≠ h
  · rw [if_pos hh]; exact hinv
  · rw [if_neg hh]
    cases hsm : sm m.shard_id with
    | none => exact hinv
    | some ssd =>
      have hssd : ssdInv ssd := hinv m.shard_id ssd hsm
      cases hres : m.result with
      | error e => exact hinv
      | ok fd =>
        cases fd with
        | stateHeader len hd =>
          dsimp only
          split
          · exact hinv
          · cases hg : ssd.get_header_download with
            | none => exact hinv
            | some d =>
              dsimp only
              by_cases hdone : d.done = true
              · rw [if_pos hdone]; exact hinv
              · rw [if_neg hdone]
                have hsafe' := hsafe ssd hsm
                simp only [hres] at hsafe'
                have hdre := hsafe' d hg
                cases hset : c.set_state_header m.shard_id h hd with
                | ok c' =>
                  dsimp only [process_download_response_m, Option.map]
                  refine mapInv_insert sm m.shard_id _ hinv ?_
                  intro j x hx
                  refine invList_set ssd.downloads 0 _
                    (fun j x hx => hssd j x hx) ?_ j x hx
                  intro hc
                  exact ⟨hdre.1, hdre.2⟩
                | error ce =>
                  dsimp only [process_download_response_m, Option.map]
                  refine mapInv_insert sm m.shard_id _ hinv ?_
                  intro j x hx
                  refine invList_set ssd.downloads 0 _
                    (fun j x hx => hssd j x hx) ?_ j x hx
                  intro hc
                  simp at hc
        | statePart len =>
          dsimp only
          split
          · exact hinv
          · cases hpid : m.part_id with
            | none => exact hinv
            | some pid =>
              dsimp only
              cases hgd : ssd.downloads.get? pid.idx with
              | none => exact hinv
              | some d =>
                dsimp only
                have hsafe' := hsafe ssd hsm
                simp only [hres] at hsafe'
                have hdre := hsafe' pid d hpid hgd
                dsimp only [process_download_response_m, Option.map]
                refine mapInv_insert sm m.shard_id _ hinv ?_
                intro j x hx
                refine invList_set ssd.downloads pid.idx _
                  (fun j x hx => hssd j x hx) ?_ j x hx
                intro hc
                exact ⟨hdre.1, hdre.2⟩

theorem drain_one_re (h : Hash) (st : Chain × ShardMap)
    (m : StateSyncGetFileResult) : mapRE st.2 (drain_one h st m).2 := by
  obtain ⟨c, sm⟩ := st
  unfold drain_one
  dsimp only
  by_cases hh : m.sync_hash ≠ h
  · rw [if_pos hh]; exact mapRE_refl sm
  · rw [if_neg hh]
    cases hsm : sm m.shard_id with
    | none => exact mapRE_refl sm
    | some ssd =>
      cases hres : m.result with
      | error e => exact mapRE_refl sm
      | ok fd =>
        cases fd with
        | stateHeader len hd =>
          dsimp only
          split
          · exact mapRE_refl sm
          · cases hg : ssd.get_header_download with
            | none => exact mapRE_refl sm
            | some d =>
              dsimp only
              have hd0 : ssd.downloads.get? 0 = some d := by
                unfold ShardSyncDownload.get_header_download at hg
                split at hg
                · rw [← head?_get0]; exact hg
                · cases hg
              by_cases hdone : d.done = true
              · rw [if_pos hdone]; exact mapRE_refl sm
              · rw [if_neg hdone]
                cases hset : c.set_state_header m.shard_id h hd with
                | ok c' =>
                  dsimp only [process_download_response_m, Option.map]
                  exact mapRE_insert_same sm m.shard_id ssd _ hsm
                    (sameRE_set ssd 0 d _ hd0 rfl rfl)
                | error ce =>
                  dsimp only [process_download_response_m, Option.map]
                  exact mapRE_insert_same sm m.shard_id ssd _ hsm
                    (sameRE_set ssd 0 d _ hd0 rfl rfl)
        | statePart len =>
          dsimp only
          split
          · exact mapRE_refl sm
          · cases hpid : m.part_id with
            | none => exact mapRE_refl sm
            | some pid =>
              dsimp only
              cases hgd : ssd.downloads.get? pid.idx with
              | none => exact mapRE_refl sm
              | some d =>
                dsimp only [process_download_response_m, Option.map]
                exact mapRE_insert_same sm m.shard_id ssd _ hsm
                  (sameRE_set ssd pid.idx d _ hgd rfl rfl)

theorem drain_fold_inv (h : Hash) :
    ∀ (msgs : List StateSyncGetFileResult) (st : Chain × ShardMap),
    mapInv st.2 → (∀ m ∈ msgs, msgOkSafe st.2 m) →
    mapInv (msgs.foldl (drain_one h) st).2 := by
  intro msgs
  induction msgs with
  | nil => intro st hinv _; exact hinv
  | cons x xs ih =>
    intro st hinv hsafe
    simp only [List.foldl]
    apply ih (drain_one h st x)
    · exact drain_one_inv h st x hinv (hsafe x (List.mem_cons_self x xs))
    · intro m hm
      exact msgOkSafe_re st.2 (drain_one h st x).2 m (drain_one_re h st x)
        (hsafe m (List.mem_cons_of_mem x hm))

/-- C2 (amended): `run` preserves the slot invariant `done ⇒ ¬run_me ∧
¬error`, provided it held at entry and every successful completion message
pending in the channel targets a slot with `run_me` and `error` clear. -/
theorem c2_amended_run_preserves_slot_invariant (ss : StateSync)
    (chain : Chain) (map : ShardMap) (peers : List PeerId)
    (tracking : List ShardId) (now : Int) (sync_hash : Hash)
    (hinv : mapInv map) (hsafe : ∀ m ∈ ss.channel, msgOkSafe map m) :
    mapInv (StateSync.run ss sync_hash map chain peers tracking now).map := by
  unfold StateSync.run
  by_cases hT : tracking = []
  · rw [if_pos hT]; exact hinv
  · rw [if_neg hT]
    dsimp only
    have hdr : mapInv (process_downloaded_parts_m sync_hash chain map
        ss.channel).2 :=
      drain_fold_inv sync_hash ss.channel (chain, map) hinv hsafe
    have hst := status_inv { ss with channel := [] }
      (process_downloaded_parts_m sync_hash chain map ss.channel).1
      (process_downloaded_parts_m sync_hash chain map ss.channel).2
      sync_hash peers tracking now hdr
    rcases hR : sync_shards_status_m { ss with channel := [] }
        (process_downloaded_parts_m sync_hash chain map ss.channel).1
        (process_downloaded_parts_m sync_hash chain map ss.channel).2
        sync_hash peers tracking now with ⟨rss, rchain, rmap, rres⟩
    rw [hR] at hst
    dsimp only at hst
    cases rres with
    | error e => exact hst
    | ok all => exact hst

theorem c2_witness :
    mapInv c2wMap ∧ (∀ m ∈ c2wSS.channel, msgOkSafe c2wMap m) ∧
    mapInv (StateSync.run c2wSS 10 c2wMap baseChain [] [0] 100).map := by
  have h1 : mapInv c2wMap := by
    intro k s hk
    unfold c2wMap at hk
    split at hk
    · cases hk
      exact ssdInv_new_header 100
    · cases hk
  have h2 : ∀ m ∈ c2wSS.channel, msgOkSafe c2wMap m := by
    intro m hm
    exact absurd hm (by simp [c2wSS])
  exact ⟨h1, h2,
    c2_amended_run_preserves_slot_invariant c2wSS baseChain c2wMap [] [0]
      100 10 h1 h2⟩

/-- C2 counterexample: slot 0 of shard 0 enters the tick armed
(`run_me = true`, re-armed after a timeout) and with `error = true` (set
by a failed peer response), while a successful external completion for it
waits in the channel. The drain marks it `done` without clearing either
flag, and the parts handler skips done slots, so after `run` the slot has
`done ∧ run_me ∧ error`. -/
theorem c2_counterexample :
    ((StateSync.run c2SS 10 c2Map baseChain [] [0] 100).map 0).map
        (fun s => s.downloads.map (fun d => (d.done, d.run_me, d.error))) =
      some [(true, true, true), (false, false, false)] ∧
    ¬ mapInv (StateSync.run c2SS 10 c2Map baseChain [] [0] 100).map := by
  refine ⟨rfl, ?_⟩
  intro hinv
  have hm : (StateSync.run c2SS 10 c2Map baseChain [] [0] 100).map 0 =
      some ⟨[{ c2SlotA with done := true }, c2SlotB],
        .StateDownloadParts⟩ := rfl
  have hs := hinv 0 _ hm
  have hc := hs 0 { c2SlotA with done := true } rfl rfl
  exact absurd hc.1 (by decide)

theorem get_block_header_err (c : Chain) (h : Hash) (e : SyncErr)
    (he : Chain.get_block_header c h = .error e) : ∃ ce, e = .chainErr ce := by
  unfold Chain.get_block_header at he
  split at he
  · cases he
  · cases he; exact ⟨_, rfl⟩

theorem get_state_header_err (c : Chain) (sid : ShardId) (h : Hash)
    (e : SyncErr) (he : Chain.get_state_header c sid h = .error e) :
    ∃ ce, e = .chainErr ce := by
  unfold Chain.get_state_header at he
  split at he
  · cases he
  · cases he; exact ⟨_, rfl⟩

theorem clear_parts_err (c : Chain) (sid : ShardId) (h : Hash) (n : Nat)
    (e : SyncErr) (he : Chain.clear_downloaded_parts c sid h n = .error e) :
    ∃ ce, e = .chainErr ce := by
  unfold Chain.clear_downloaded_parts at he
  split at he
  · cases he
  · cases he; exact ⟨_, rfl⟩

theorem create_flat_err (c : Chain) (uid : ShardUId) (e : SyncErr)
    (he : Chain.create_flat_storage c uid = .error e) :
    ∃ ce, e = .chainErr ce := by
  unfold Chain.create_flat_storage at he
  split at he
  · cases he
  · cases he; exact ⟨_, rfl⟩

theorem set_state_finalize_err (c : Chain) (sid : ShardId) (h : Hash)
    (e : SyncErr) (he : Chain.set_state_finalize c sid h = .error e) :
    ∃ ce, e = .chainErr ce := by
  unfold Chain.set_state_finalize at he
  split at he
  · cases he
  · cases he; exact ⟨_, rfl⟩

theorem header_status_err_ne (t : Int) (c : Chain) (sid : ShardId) (h : Hash)
    (now : Int) (ssd : ShardSyncDownload) :
    (sync_shards_download_header_status_m t c sid h now ssd).2.2.2 ≠
      some .panicAssertHeaderRunMe := by
  unfold sync_shards_download_header_status_m
  repeat' split
  all_goals intro hc
  all_goals first
    | (simp at hc; done)
    | (obtain ⟨ce, hce⟩ := get_state_header_err c sid h _ (by assumption);
       subst hce; simp at hc)

theorem scheduling_status_err_ne (c : Chain) (sid : ShardId) (h : Hash)
    (now : Int) (ssd : ShardSyncDownload) :
    (sync_shards_apply_scheduling_status_m c sid h now ssd).2.2 ≠
      some .panicAssertHeaderRunMe := by
  unfold sync_shards_apply_scheduling_status_m
  repeat' split
  all_goals intro hc
  all_goals first
    | (simp at hc; done)
    | (obtain ⟨ce, hce⟩ := get_state_header_err c sid h _ (by assumption);
       subst hce; simp at hc)
    | (obtain ⟨ce, hce⟩ := clear_parts_err c sid h _ _ (by assumption);
       subst hce; simp at hc)

theorem apply_status_err_ne (ss : StateSync) (c : Chain) (sid : ShardId)
    (h : Hash) (ssd : ShardSyncDownload) :
    (sync_shards_apply_status_m ss c sid h ssd).2.2.2 ≠
      some .panicAssertHeaderRunMe := by
  unfold sync_shards_apply_status_m
  repeat' split
  all_goals intro hc
  all_goals try (simp at hc; done)
  all_goals try (obtain ⟨ce, hce⟩ := get_block_header_err c h _ (by assumption);
                   subst hce; simp at hc; done)
  all_goals try (obtain ⟨ce, hce⟩ := get_state_header_err c sid h _ (by assumption);
                   subst hce; simp at hc; done)
  all_goals dsimp only at hc
  all_goals try (split at hc)
  all_goals try (simp at hc; done)
  all_goals try (split at hc)
  all_goals try (simp at hc; done)
  all_goals (obtain ⟨ce, hce⟩ := create_flat_err c _ _ (by assumption);
               subst hce; simp at hc)

theorem finalizing_impl_err_ne (ss : StateSync) (c : Chain) (uid : ShardUId)
    (h : Hash) (r : Bool) (ssd : ShardSyncDownload) :
    (sync_shards_apply_finalizing_status_impl_m ss c uid h r ssd).2.2.2.2 ≠
      some .panicAssertHeaderRunMe := by
  unfold sync_shards_apply_finalizing_status_impl_m
  repeat' split
  all_goals intro hc
  all_goals first
    | (simp at hc; done)
    | (obtain ⟨ce, hce⟩ := set_state_finalize_err c uid.shard_id h _
        (by assumption);
       subst hce; simp at hc)

theorem finalizing_status_err_ne (ss : StateSync) (c : Chain) (uid : ShardUId)
    (h : Hash) (now : Int) (r : Bool) (ssd : ShardSyncDownload) :
    (sync_shards_apply_finalizing_status_m ss c uid h now r ssd).2.2.2.2 ≠
      some .panicAssertHeaderRunMe := by
  unfold sync_shards_apply_finalizing_status_m
  rcases hI : sync_shards_apply_finalizing_status_impl_m ss c uid h r ssd with
    ⟨iss, ichain, issd, idone, ierr⟩
  have himp := finalizing_impl_err_ne ss c uid h r ssd
  rw [hI] at himp
  dsimp only at himp
  cases ierr with
  | none => intro hc; simp at hc
  | some e =>
    dsimp only
    repeat' split
    all_goals intro hc
    all_goals first
      | (exact himp (by simpa using hc))
      | (obtain ⟨ce, hce⟩ := get_state_header_err ichain uid.shard_id h _
          (by assumption);
         subst hce; simp at hc)
      | (obtain ⟨ce, hce⟩ := clear_parts_err ichain uid.shard_id h _ _
          (by assumption);
         subst hce; simp at hc)

theorem parts_body_err (ext : Option StateSyncExternalCfg) (c : Chain)
    (sid : ShardId) (h : Hash) (pid : Nat) (d : DownloadStatus)
    (acc : PartsLoopAcc) :
    (request_shard_parts_body ext c sid h pid d acc).2.err = acc.err ∨
    (request_shard_parts_body ext c sid h pid d acc).2.err =
      some .panicUnwrapFailed := by
  unfold request_shard_parts_body
  dsimp only
  repeat' split
  all_goals simp

theorem parts_go_err (ext : Option StateSyncExternalCfg) (c : Chain)
    (sid : ShardId) (h : Hash) :
    ∀ (l : List DownloadStatus) (pid : Nat) (acc : PartsLoopAcc),
    (request_shard_parts_go ext c sid h l pid acc).2.err = acc.err ∨
    (request_shard_parts_go ext c sid h l pid acc).2.err =
      some .panicUnwrapFailed := by
  intro l
  induction l with
  | nil => intro pid acc; exact Or.inl rfl
  | cons d0 rest ih =>
    intro pid acc
    unfold request_shard_parts_go
    split
    · exact ih (pid + 1) acc
    · dsimp only
      split
      · rcases parts_body_err ext c sid h pid d0 acc with hb | hb
        · exact Or.inl hb
        · exact Or.inr hb
      · rcases ih (pid + 1)
          (request_shard_parts_body ext c sid h pid d0 acc).2 with hg | hg
        · rcases parts_body_err ext c sid h pid d0 acc with hb | hb
          · exact Or.inl (hg.trans hb)
          · exact Or.inr (hg.trans hb)
        · exact Or.inr hg

theorem parts_req_err (ext : Option StateSyncExternalCfg) (c : Chain)
    (sid : ShardId) (h : Hash) (ssd : ShardSyncDownload) (p : Nat) :
    (request_shard_parts_m ext c sid h ssd p).err = none ∨
    (request_shard_parts_m ext c sid h ssd p).err =
      some .panicUnwrapFailed := by
  unfold request_shard_parts_m
  dsimp only
  rcases parts_go_err ext c sid h ssd.downloads 0 ⟨p, 0, none, [], [], none⟩
    with hg | hg
  · exact Or.inl hg
  · exact Or.inr hg

theorem header_req_err_ne (ext : Option StateSyncExternalCfg) (c : Chain)
    (sid : ShardId) (h : Hash) (pts : List PeerId) (ssd : ShardSyncDownload)
    (hrm : ∀ d, ssd.get_header_download = some d → d.run_me = true) :
    (request_shard_header_m ext c sid h pts ssd).err ≠
      some .panicAssertHeaderRunMe := by
  unfold request_shard_header_m
  cases hg : ssd.get_header_download with
  | none => intro hc; simp at hc
  | some d =>
    dsimp only
    have hd := hrm d hg
    repeat' split
    all_goals intro hc
    all_goals try (simp at hc; done)
    simp_all

theorem request_shard_err_ne (ext : Option StateSyncExternalCfg) (c : Chain)
    (sid : ShardId) (h : Hash) (peers : List PeerId) (ssd : ShardSyncDownload)
    (p : Nat)
    (hrm : ssd.status = .StateDownloadHeader →
      ∀ d, ssd.get_header_download = some d → d.run_me = true) :
    (request_shard_m ext c sid h peers ssd p).err ≠
      some .panicAssertHeaderRunMe := by
  unfold request_shard_m
  cases hst : ssd.status
  all_goals dsimp only
  case StateDownloadHeader =>
    cases ext with
    | some cfg =>
      dsimp only
      exact header_req_err_ne _ c sid h [] ssd (hrm hst)
    | none =>
      dsimp only
      split
      · intro hc; simp at hc
      · exact header_req_err_ne _ c sid h peers ssd (hrm hst)
  case StateDownloadParts =>
    intro hc
    have hc' : (request_shard_parts_m ext c sid h ssd p).err =
        some .panicAssertHeaderRunMe := hc
    rcases parts_req_err ext c sid h ssd p with hg | hg <;>
      rw [hg] at hc' <;> simp at hc'
  all_goals intro hc
  all_goals simp at hc

theorem get_header_download_status (s : ShardSyncDownload)
    (d : DownloadStatus) (hd : s.get_header_download = some d) :
    s.status = .StateDownloadHeader := by
  unfold ShardSyncDownload.get_header_download at hd
  split at hd
  · assumption
  · cases hd

theorem new_header_slot_run (now : Int) :
    ∀ d, (ShardSyncDownload.new_download_state_header now).get_header_download =
      some d → d.run_me = true := by
  intro d hd
  simp [ShardSyncDownload.get_header_download,
    ShardSyncDownload.new_download_state_header] at hd
  rw [← hd]
  rfl

theorem scheduling_header_is_fresh (c : Chain) (sid : ShardId) (h : Hash)
    (now : Int) (ssd : ShardSyncDownload)
    (hs : ssd.status = .StateApplyScheduling)
    (hc : (sync_shards_apply_scheduling_status_m c sid h now ssd).1.status =
      .StateDownloadHeader) :
    (sync_shards_apply_scheduling_status_m c sid h now ssd).1 =
      ShardSyncDownload.new_download_state_header now := by
  unfold sync_shards_apply_scheduling_status_m at hc ⊢
  repeat' split at hc
  all_goals first | rfl | simp_all

theorem apply_header_not (ss : StateSync) (c : Chain) (sid : ShardId)
    (h : Hash) (ssd : ShardSyncDownload)
    (hs : ssd.status = .StateApplyInProgress) :
    (sync_shards_apply_status_m ss c sid h ssd).2.2.1.status ≠
      .StateDownloadHeader := by
  unfold sync_shards_apply_status_m
  repeat' split
  all_goals try simp_all
  all_goals (split <;> simp_all)

theorem finalizing_impl_header_not (ss : StateSync) (c : Chain)
    (uid : ShardUId) (h : Hash) (r : Bool) (ssd : ShardSyncDownload)
    (hs : ssd.status = .StateApplyFinalizing) :
    (sync_shards_apply_finalizing_status_impl_m ss c uid h r ssd).2.2.1.status ≠
      .StateDownloadHeader := by
  unfold sync_shards_apply_finalizing_status_impl_m
  repeat' split
  all_goals simp_all

theorem finalizing_header_is_fresh (ss : StateSync) (c : Chain)
    (uid : ShardUId) (h : Hash) (now : Int) (r : Bool)
    (ssd : ShardSyncDownload) (hs : ssd.status = .StateApplyFinalizing)
    (hc : (sync_shards_apply_finalizing_status_m ss c uid h now r ssd).2.2.1.status =
      .StateDownloadHeader) :
    (sync_shards_apply_finalizing_status_m ss c uid h now r ssd).2.2.1 =
      ShardSyncDownload.new_download_state_header now := by
  unfold sync_shards_apply_finalizing_status_m at hc ⊢
  rcases hI : sync_shards_apply_finalizing_status_impl_m ss c uid h r ssd with
    ⟨iss, ichain, issd, idone, ierr⟩
  rw [hI] at hc
  cases ierr with
  | none =>
    dsimp only at hc
    have himp := finalizing_impl_header_not ss c uid h r ssd hs
    rw [hI] at himp
    exact absurd hc himp
  | some e =>
    dsimp only at hc ⊢
    repeat' split
    all_goals rfl

theorem header_status_run (t : Int) (c : Chain) (sid : ShardId) (h : Hash)
    (now : Int) (ssd : ShardSyncDownload)
    (hs : ssd.status = .StateDownloadHeader)
    (hr : (sync_shards_download_header_status_m t c sid h now ssd).2.2.1 =
      true) :
    ∀ d, (sync_shards_download_header_status_m t c sid h now
      ssd).1.get_header_download = some d → d.run_me = true := by
  unfold sync_shards_download_header_status_m at hr ⊢
  cases hh : ssd.downloads.head? with
  | none =>
    rw [hh] at hr
    simp at hr
  | some download =>
    rw [hh] at hr
    dsimp only at hr ⊢
    by_cases hdone : download.done = true
    · rw [if_pos hdone] at hr ⊢
      cases hsh : c.get_state_header sid h with
      | error e => rw [hsh] at hr; simp at hr
      | ok sh =>
        intro d hd
        have := get_header_download_status _ d hd
        simp [ShardSyncDownload.new_download_state_parts] at this
    · rw [if_neg hdone] at hr ⊢
      dsimp only at hr ⊢
      intro d hd
      unfold ShardSyncDownload.get_header_download at hd
      dsimp only at hd
      rw [if_pos hs] at hd
      cases hlist : ssd.downloads with
      | nil => rw [hlist] at hh; cases hh
      | cons a tl =>
        rw [hlist] at hd
        dsimp only [List.set] at hd
        rw [head?_get0, List.get?_cons_zero] at hd
        have hdd := Option.some.inj hd
        rw [← hdd]
        exact hr

theorem handle_request_safe (ss : StateSync) (c : Chain) (h : Hash)
    (now : Int) (r : Bool) (uid : ShardUId) (sid : ShardId)
    (ssd : ShardSyncDownload) (run0 : Bool)
    (hrun : (handle_shard_status ss c h now r uid sid ssd
      run0).run_download = true) :
    ∀ d, (handle_shard_status ss c h now r uid sid
      ssd run0).ssd.get_header_download = some d → d.run_me = true := by
  unfold handle_shard_status at hrun ⊢
  cases hst : ssd.status
  all_goals rw [hst] at hrun
  all_goals dsimp only at hrun ⊢
  case StateDownloadHeader =>
    exact header_status_run ss.timeout c sid h now ssd hst hrun
  case StateDownloadParts =>
    intro d hd
    have hst2 := get_header_download_status _ d hd
    rcases parts_status_out ss.timeout now ssd hst with h1 | h1 <;> simp_all
  case StateApplyScheduling =>
    intro d hd
    have hst2 := get_header_download_status _ d hd
    have hfresh := scheduling_header_is_fresh c sid h now ssd hst hst2
    rw [hfresh] at hd
    exact new_header_slot_run now d hd
  case StateApplyInProgress =>
    intro d hd
    exact absurd (get_header_download_status _ d hd)
      (apply_header_not ss c sid h ssd hst)
  case StateApplyFinalizing =>
    intro d hd
    have hst2 := get_header_download_status _ d hd
    have hfresh := finalizing_header_is_fresh ss c uid h now r ssd hst hst2
    rw [hfresh] at hd
    exact new_header_slot_run now d hd
  case ReshardingScheduling =>
    intro d hd
    have hst2 := get_header_download_status _ d hd
    rw [hst] at hst2
    simp at hst2
  case ReshardingApplying =>
    intro d hd
    have hst2 := get_header_download_status _ d hd
    rw [hst] at hst2
    simp at hst2
  case StateSyncDone =>
    intro d hd
    have hst2 := get_header_download_status _ d hd
    rw [hst] at hst2
    simp at hst2

theorem handle_err_ne (ss : StateSync) (c : Chain) (h : Hash) (now : Int)
    (r : Bool) (uid : ShardUId) (sid : ShardId) (ssd : ShardSyncDownload)
    (run0 : Bool) :
    (handle_shard_status ss c h now r uid sid ssd run0).err ≠
      some .panicAssertHeaderRunMe := by
  unfold handle_shard_status
  cases ssd.status
  all_goals dsimp only
  case StateDownloadHeader => exact header_status_err_ne ss.timeout c sid h now ssd
  case StateDownloadParts => intro hc; simp at hc
  case StateApplyScheduling => exact scheduling_status_err_ne c sid h now ssd
  case StateApplyInProgress => exact apply_status_err_ne ss c sid h ssd
  case StateApplyFinalizing =>
    exact finalizing_status_err_ne ss c uid h now r ssd
  case ReshardingScheduling => intro hc; simp at hc
  case ReshardingApplying => intro hc; simp at hc
  case StateSyncDone => intro hc; simp at hc

theorem advance_tail_err_ne (hout : HandlerOut) (map : ShardMap) (h : Hash)
    (peers : List PeerId) (sid : ShardId)
    (hsafe : hout.run_download = true →
      ∀ d, hout.ssd.get_header_download = some d → d.run_me = true)
    (hne : hout.err ≠ some .panicAssertHeaderRunMe) :
    (advance_tail hout map h peers sid).2.2.2.2 ≠
      some .panicAssertHeaderRunMe := by
  unfold advance_tail
  cases hE : hout.err with
  | some e =>
    intro hc
    dsimp only at hc
    rw [hE] at hne
    exact hne hc
  | none =>
    dsimp only
    split
    · rename_i hrun
      intro hc
      dsimp only at hc
      exact request_shard_err_ne hout.ss.external hout.chain sid h peers
        hout.ssd (StateSync.externalPermits hout.ss) (fun _ => hsafe hrun) hc
    · intro hc; simp at hc

theorem advance_err_ne (ss : StateSync) (c : Chain) (map : ShardMap)
    (h : Hash) (peers : List PeerId) (now : Int) (v : Nat) (r : Bool)
    (sid : ShardId) :
    (advance_shard ss c map h peers now v r sid).2.2.2.2 ≠
      some .panicAssertHeaderRunMe := by
  unfold advance_shard
  exact advance_tail_err_ne _ map h peers sid
    (handle_request_safe ss c h now r ⟨v, sid⟩ sid _ _)
    (handle_err_ne ss c h now r ⟨v, sid⟩ sid _ _)

theorem loop_err_ne (h : Hash) (peers : List PeerId) (now : Int) (v : Nat)
    (r : Bool) :
    ∀ (l : List ShardId) (ss : StateSync) (c : Chain) (map : ShardMap)
      (acc : Bool),
    (sync_shards_loop h peers now v r ss c map l acc).2.2.2 ≠
      .error .panicAssertHeaderRunMe := by
  intro l
  induction l with
  | nil => intro ss c map acc hc; simp [sync_shards_loop] at hc
  | cons sid rest ih =>
    intro ss c map acc
    unfold sync_shards_loop
    rcases hAdv : advance_shard ss c map h peers now v r sid with
      ⟨ass, achain, amap, adone, aerr⟩
    have hane := advance_err_ne ss c map h peers now v r sid
    rw [hAdv] at hane
    dsimp only at hane
    cases aerr with
    | some e =>
      intro hc
      dsimp only at hc
      have he : e = .panicAssertHeaderRunMe := by injection hc
      exact hane (by rw [he])
    | none => exact ih ass achain amap (acc && adone)

theorem status_err_ne (ss : StateSync) (c : Chain) (map : ShardMap)
    (h : Hash) (peers : List PeerId) (tracking : List ShardId) (now : Int) :
    (sync_shards_status_m ss c map h peers tracking now).2.2.2 ≠
      .error .panicAssertHeaderRunMe := by
  unfold sync_shards_status_m
  repeat' split
  all_goals first
    | (intro hc; simp at hc; done)
    | (intro hc
       simp at hc
       obtain ⟨ce, hce⟩ := get_block_header_err _ _ _ (by assumption)
       subst hc
       simp at hce)
    | exact loop_err_ne h peers now _ _ tracking ss c map true

/-- C10: the `assert!(header_download.run_me)` in the peer branch of
`request_shard_header` never fails: whatever the starting state, `run`
never produces the corresponding panic, because the driver only dispatches
a header request after observing `run_me = true` for that slot in the same
tick, and every other path hands the dispatcher a freshly armed slot. -/
theorem c10_header_assert_never_fails (ss : StateSync) (chain : Chain)
    (map : ShardMap) (peers : List PeerId) (tracking : List ShardId)
    (now : Int) (sync_hash : Hash) :
    (StateSync.run ss sync_hash map chain peers tracking now).result ≠
      .error .panicAssertHeaderRunMe := by
  unfold StateSync.run
  by_cases hT : tracking = []
  · rw [if_pos hT]; intro hc; simp at hc
  · rw [if_neg hT]
    dsimp only
    have hne := status_err_ne { ss with channel := [] }
      (process_downloaded_parts_m sync_hash chain map ss.channel).1
      (process_downloaded_parts_m sync_hash chain map ss.channel).2
      sync_hash peers tracking now
    rcases hR : sync_shards_status_m { ss with channel := [] }
        (process_downloaded_parts_m sync_hash chain map ss.channel).1
        (process_downloaded_parts_m sync_hash chain map ss.channel).2
        sync_hash peers tracking now with ⟨rss, rchain, rmap, rres⟩
    rw [hR] at hne
    dsimp only at hne
    cases rres with
    | error e =>
      dsimp only
      intro hc
      have he : e = .panicAssertHeaderRunMe := by injection hc
      exact hne (by rw [he])
    | ok all =>
      dsimp only
      intro hc
      simp at hc

end StateSyncModel
